import Mathlib

/-!
Verification development for the Human-in-the-Loop AI Supervisor repository
(a salon voice agent with a supervisor escalation dashboard).

The Python sources are shallowly embedded: SQLite tables become Lean lists in
insertion (rowid) order, the sqlite row cursor becomes explicit state passing,
machine floats used only for duration/energy thresholds become exact sample
counts, and the external model services (transcription, LLM, TTS) become
explicit parameters describing their outcome.
-/

set_option maxRecDepth 100000

namespace SalonAgent

/-! ## Python string primitives

Mirrors of the CPython string/regex operations used by `db.py` and
`voice_agent.py`. Inputs in this system are ASCII, for which `Char.toLower`
agrees with `str.lower`, Lean alphanumeric checks agree with `\w` minus the
underscore (added explicitly), and the whitespace set below is `\s`. -/

/-- Python regex `\s` / `str.split()` whitespace (ASCII range). -/
def isPySpace (c : Char) : Bool :=
  c == ' ' || c == '\t' || c == '\n' || c == '\r' || c == '\x0b' || c == '\x0c'

/-- Python regex `\w` word characters (ASCII range). -/
def isPyWord (c : Char) : Bool := c.isAlphanum || c == '_'

/-- Python `str.strip()` on a character list: drop whitespace from both ends. -/
def pyStripChars (l : List Char) : List Char :=
  ((l.dropWhile isPySpace).reverse.dropWhile isPySpace).reverse

/-- Python `str.strip(chars)`: drop characters of the given set from both ends. -/
def pyStripSet (set : List Char) (l : List Char) : List Char :=
  ((l.dropWhile (fun c => set.contains c)).reverse.dropWhile
    (fun c => set.contains c)).reverse

/-- Helper for `re.sub(r'\s+', ' ', s)`: the flag records whether the previous
character was whitespace (so a run collapses to a single space). -/
def collapseWsAux : List Char → Bool → List Char
  | [], _ => []
  | c :: rest, prevSpace =>
    if isPySpace c then
      if prevSpace then collapseWsAux rest true
      else ' ' :: collapseWsAux rest true
    else c :: collapseWsAux rest false

/-- Python `re.sub(r'\s+', ' ', s)`: each maximal whitespace run becomes one space. -/
def collapseWs (l : List Char) : List Char := collapseWsAux l false

/-- Helper for `str.split()`: accumulate the current word (reversed). -/
def pySplitAux : List Char → List Char → List (List Char)
  | [], acc => if acc.isEmpty then [] else [acc.reverse]
  | c :: rest, acc =>
    if isPySpace c then
      if acc.isEmpty then pySplitAux rest []
      else acc.reverse :: pySplitAux rest []
    else pySplitAux rest (c :: acc)

/-- Python `str.split()` with no argument: split on whitespace runs, no empty parts. -/
def pySplit (l : List Char) : List (List Char) := pySplitAux l []

/-- Python substring test `needle in hay` (contiguous substring). -/
def isSubstr (needle hay : List Char) : Bool :=
  (List.range (hay.length + 1)).any (fun i => needle.isPrefixOf (hay.drop i))

/-- Python `str.lower()` (ASCII). -/
def pyLower (s : String) : String := String.mk (s.data.map Char.toLower)

/-! ## difflib.SequenceMatcher

Faithful model of CPython `difflib.SequenceMatcher(None, a, b).ratio()` for
short sequences (autojunk only activates for `len(b) >= 200`, which never holds
for this knowledge base, so the junk machinery is omitted). -/

/-- Best matching block `a[bi:bi+size] == b[bj:bj+size]` found so far. -/
structure SMBest where
  bi : Nat
  bj : Nat
  size : Nat
deriving DecidableEq, Repr

/-- One row of the `find_longest_match` dynamic programme: entry `j` is the
length of the common suffix of `a[..i]` and `b[..j]` ending at `a[i] = b[j]`
(0 if the characters differ), computed from the previous row. -/
def smRow (prevRow : List Nat) (b : List Char) (ai : Char) : List Nat :=
  (List.range b.length).map (fun j =>
    if b[j]? == some ai then (if j == 0 then 0 else prevRow.getD (j - 1) 0) + 1
    else 0)

/-- Scan a row left to right, keeping the first strictly longer block
(the CPython update `if k > bestsize`). -/
def smUpdateBest (i : Nat) (row : List Nat) (best : SMBest) : SMBest :=
  (List.range row.length).foldl
    (fun acc j =>
      let k := row.getD j 0
      if acc.size < k then ⟨i + 1 - k, j + 1 - k, k⟩ else acc)
    best

/-- CPython `SequenceMatcher.find_longest_match` over the full ranges
(no junk, see above). -/
def findLongestMatch (a b : List Char) : SMBest :=
  (a.enum.foldl
    (fun acc ic =>
      let row := smRow acc.1 b ic.2
      (row, smUpdateBest ic.1 row acc.2))
    ((List.replicate b.length 0 : List Nat), (⟨0, 0, 0⟩ : SMBest))).2

/-- Total matched characters of `get_matching_blocks`: recursively take the
longest match and recurse on the pieces to its left and right. The fuel
`a.length + b.length + 1` strictly exceeds the recursion depth (each level
removes at least one character from each side of a nonempty match). -/
def matchTotal : Nat → List Char → List Char → Nat
  | 0, _, _ => 0
  | fuel + 1, a, b =>
    let m := findLongestMatch a b
    if m.size == 0 then 0
    else
      m.size + matchTotal fuel (a.take m.bi) (b.take m.bj)
        + matchTotal fuel (a.drop (m.bi + m.size)) (b.drop (m.bj + m.size))

/-- Sum of the sizes of all matching blocks (the `matches` of `ratio()`). -/
def smMatches (a b : List Char) : Nat := matchTotal (a.length + b.length + 1) a b

/-- CPython `ratio() > 0.8`, i.e. `2*M/(|a|+|b|) > 0.8`, in exact integer form
`5*M > 2*(|a|+|b|)`. (For the short strings involved the rational value is
never close enough to 0.8 for binary64 rounding to flip the comparison.) -/
def ratioAbove (a b : List Char) : Bool :=
  decide (2 * (a.length + b.length) < 5 * smMatches a b)

/-! ## Data model (`src/database/db.py`)

SQLite tables become Lean lists in rowid/insertion order. `uuid.uuid4()` ids
are external randomness and are passed in as explicit (string) parameters;
an actual uuid is a nonempty 36-character string, so it is always truthy in
the Python `if req.get(...)` checks. -/

/-- A row of the `customers` table. -/
structure Customer where
  id : String
  phone : String
  name : String
deriving DecidableEq, Repr

/-- A row of the `help_requests` table. `status` is the raw TEXT column
(defaulting to "pending" on insert); `supervisorAnswer` is the nullable
`supervisor_answer` column. -/
structure HelpReq where
  id : String
  question : String
  callerId : String
  phone : Option String
  status : String
  supervisorAnswer : Option String
deriving DecidableEq, Repr

/-- The persisted store: the three tables, each in insertion order. -/
structure DB where
  kb : List (String × String)
  customers : List Customer
  requests : List HelpReq
deriving DecidableEq, Repr

def emptyDB : DB := ⟨[], [], []⟩

/-- The 12 rows of `Database._seed_initial_data` (questions are inserted
lowercased; they already are lowercase in the source). -/
def seedData : List (String × String) :=
  [("what are your hours", "We\x27re open Monday to Friday 9AM-7PM, Saturday 10AM-5PM"),
   ("when are you open", "Our hours are Monday-Friday 9AM-7PM, Saturday 10AM-5PM"),
   ("where are you located", "We\x27re at 123 Beauty Street, Glamour City"),
   ("what services do you offer", "We offer haircuts, coloring, styling, and spa treatments"),
   ("how much is a haircut", "Haircuts start at $45"),
   ("do you accept walk ins", "Yes, we accept walk-ins based on availability"),
   ("do you take walk ins", "Yes, we accept walk-ins based on availability"),
   ("walk ins", "Yes, we accept walk-ins based on stylist availability"),
   ("how to book appointment", "You can book by calling us or through our website"),
   ("what is your cancellation policy", "We require 24 hours notice for cancellations"),
   ("do you offer hair coloring", "Yes, we offer professional hair coloring services"),
   ("what brands do you use", "We use premium brands like Redken and Olaplex")]

/-- `Database._init_db` on an existing store: `CREATE TABLE IF NOT EXISTS`
leaves existing rows untouched, then `_seed_initial_data` runs its twelve
`INSERT OR IGNORE` statements. The `knowledge_base` table has no uniqueness
constraint on `question`, so `OR IGNORE` never fires and every construction
of `Database` appends all 12 seed rows again. -/
def init_db (db : DB) : DB := { db with kb := db.kb ++ seedData }

/-- Query normalization in `Database.get_answer`:
`q.lower().strip()`, then `re.sub(r'[^\w\s]','',q)`, then `re.sub(r'\s+',' ',q)`. -/
def normQuery (s : String) : List Char :=
  collapseWs ((pyStripChars (s.data.map Char.toLower)).filter
    (fun c => isPyWord c || isPySpace c))

/-- Stored-question normalization in `Database.get_answer`:
`re.sub(r'[^\w\s]', '', row.question.lower())` (no strip, no collapse). -/
def normStored (s : String) : List Char :=
  (s.data.map Char.toLower).filter (fun c => isPyWord c || isPySpace c)

/-- The knowledge base rows with normalized questions, in SELECT (rowid) order. -/
def toNormKB (kb : List (String × String)) : List (List Char × String) :=
  kb.map (fun p => (normStored p.1, p.2))

/-- Tier 1: exact match of normalized texts (`k == q`). -/
def tier1 (q k : List Char) : Bool := k == q

/-- Tier 2: substring containment either direction (`k in q or q in k`). -/
def tier2 (q k : List Char) : Bool := isSubstr k q || isSubstr q k

/-- Tier 3: `difflib.SequenceMatcher(None, q, k).ratio() > 0.8`. -/
def tier3 (q k : List Char) : Bool := ratioAbove q k

/-- Tier 4: at least two shared distinct words
(`len(set(q.split()) & set(k.split())) >= 2`). -/
def tier4 (q k : List Char) : Bool :=
  decide (2 ≤ (((pySplit q).dedup).filter (fun w => (pySplit k).contains w)).length)

/-- `Database.get_answer`: four tiers tried in order over the stored rows,
each tier scanning rows in storage order and returning the first hit. -/
def get_answer (kb : List (String × String)) (question : String) : Option String :=
  let q := normQuery question
  let nkb := toNormKB kb
  match nkb.find? (fun p => tier1 q p.1) with
  | some p => some p.2
  | none =>
  match nkb.find? (fun p => tier2 q p.1) with
  | some p => some p.2
  | none =>
  match nkb.find? (fun p => tier3 q p.1) with
  | some p => some p.2
  | none =>
  match nkb.find? (fun p => tier4 q p.1) with
  | some p => some p.2
  | none => none

/-- `Database.add_knowledge`: append a row with the lowercased question. -/
def add_knowledge (db : DB) (question answer : String) : DB :=
  { db with kb := db.kb ++ [(pyLower question, answer)] }

/-- `Database.create_help_request`: insert a row whose `status` takes the
column default "pending" and whose `supervisor_answer` is NULL. The fresh
uuid is the `rid` parameter. (`phone_number` defaults to None and the agent
never passes it.) -/
def create_help_request (db : DB) (rid question callerId : String)
    (phone : Option String) : DB :=
  { db with requests := db.requests ++ [⟨rid, question, callerId, phone, "pending", none⟩] }

/-- `Database.resolve_request`: `UPDATE help_requests SET status='resolved',
supervisor_answer=? WHERE id=?` — unconditional on the current status. -/
def resolve_request (db : DB) (rid answer : String) : DB :=
  { db with requests := db.requests.map (fun r =>
      if r.id == rid then { r with status := "resolved", supervisorAnswer := some answer }
      else r) }

/-- The raw poller update `UPDATE help_requests SET status='delivered' WHERE id=?`. -/
def mark_delivered (db : DB) (rid : String) : DB :=
  { db with requests := db.requests.map (fun r =>
      if r.id == rid then { r with status := "delivered" } else r) }

/-- `Database.get_or_create_customer`: look up by phone, else insert a new row
with the fresh uuid `cid` and the given name (the agent always passes a name). -/
def get_or_create_customer (db : DB) (cid phone name : String) : Customer × DB :=
  match db.customers.find? (fun c => c.phone == phone) with
  | some c => (c, db)
  | none =>
    let c : Customer := ⟨cid, phone, name⟩
    (c, { db with customers := db.customers ++ [c] })

/-- `Database.get_all_requests`: all rows ordered by `created_at DESC`,
modelled as reverse insertion order (insertion order follows creation time). -/
def get_all_requests (db : DB) : List HelpReq := db.requests.reverse

/-- One binding step of a Python dict comprehension: an existing key is
re-bound in place (keys keep first-insertion order), a new key is appended. -/
def dictInsert (acc : List (String × String)) (p : String × String) :
    List (String × String) :=
  if acc.any (fun e => e.1 == p.1) then
    acc.map (fun e => if e.1 == p.1 then (e.1, p.2) else e)
  else acc ++ [p]

/-- `Database.get_knowledge_base`: the Python dict comprehension
`{row.question: row.answer}` — keys in first-insertion order, each key bound
to the answer of the **last** row with that question. -/
def get_knowledge_base (kb : List (String × String)) : List (String × String) :=
  kb.foldl dictInsert []

/-- Lookup in the dict returned by `get_knowledge_base`. -/
def dictLookup (d : List (String × String)) (q : String) : Option String :=
  (d.find? (fun p => p.1 == q)).map (fun p => p.2)

/-- The answer of the last stored row with question `q` (SQL-visible truth
that the dict comprehension keeps). -/
def lastAnswer (kb : List (String × String)) (q : String) : Option String :=
  ((kb.filter (fun p => p.1 == q)).getLast?).map (fun p => p.2)

/-! ## Voice agent (`src/agent/voice_agent.py`)

The transcription, generative and speech-synthesis network dependencies are
opaque: their outcomes are passed as parameters (`Option String` for the LLM,
where `none` is a failure or the safety block in `_get_llm_reply`). The store
writes that can raise (`PersistenceError` on the help-request INSERT) are
modelled by an explicit `writeFails` flag. Spoken output is collected in a
list instead of being streamed. -/

/-- FILTER 2 of `_transcribe_and_respond`: the fixed filler/noise tokens. -/
def noise_words : List String :=
  ["you", "um", "uh", "ah", "hello", "hi", "hey", "yo", "yes", "no"]

/-- FILTER 3 of `_transcribe_and_respond`: the question-indicator vocabulary. -/
def question_words : List String :=
  ["what", "when", "where", "who", "how", "can", "do", "does",
   "is", "are", "will", "would", "could", "should",
   "price", "cost", "book", "appointment", "hours",
   "walk", "service", "hair", "color", "cut",
   "available", "availability", "schedule", "sara", "sarah",
   "stylist", "much", "many", "tell", "need", "want"]

/-- The three ordered gates of `_transcribe_and_respond` applied to the
stripped transcript `text`: (1) `len(text) < 3`; (2) the lowercased text with
trailing/leading `.,!?` stripped equals a noise token; (3) accept only if the
lowercase word set meets the question vocabulary, or the text ends with `?`,
or it has at least 3 distinct words. `true` means the text reaches `_get_reply`. -/
def passes_filter (text : String) : Bool :=
  if text.length < 3 then false
  else if noise_words.contains
      (String.mk (pyStripSet ['.', ',', '!', '?'] (text.data.map Char.toLower))) then false
  else
    let words := (pySplit (text.data.map Char.toLower)).dedup
    words.any (fun w => question_words.any (fun qw => qw.data == w))
      || text.endsWith "?" || decide (3 ≤ words.length)

/-- The fixed escalation-indicating phrases scanned for in the LLM reply. -/
def escalation_phrases : List String :=
  ["not sure", "check with my supervisor", "check with the supervisor",
   "let me check", "i don\x27t know", "unsure"]

/-- `any(phrase in llm_reply.lower() for phrase in escalation_phrases)`. -/
def needs_escalation (reply : String) : Bool :=
  escalation_phrases.any (fun p => isSubstr p.data (reply.data.map Char.toLower))

/-- Hand-off phrase returned when an escalation phrase is detected in the LLM
reply (`_get_reply`, escalation branch). -/
def handoffPhraseLong : String :=
  "That\x27s a great question! Let me check with my supervisor and get back to you shortly. Is there anything else I can help you with?"

/-- Hand-off phrase returned when the LLM call fails outright
(`_get_reply`, failure branch). -/
def handoffPhraseShort : String :=
  "That\x27s a great question! Let me check with my supervisor and get back to you shortly."

/-- `DirectVoiceAgent._get_reply`. `llmReply` is the outcome of
`_get_llm_reply` (`none` = exception or safety block). `cid`/`rid` are the
fresh uuids drawn inside `get_or_create_customer`/`create_help_request`;
`writeFails` models the help-request INSERT raising (it is caught and logged,
the customer lookup/creation having already committed). Returns the spoken
reply and the updated store. -/
def get_reply (db : DB) (phone question : String) (llmReply : Option String)
    (cid rid : String) (writeFails : Bool) : String × DB :=
  match get_answer db.kb question with
  | some a => (a, db)
  | none =>
    match llmReply with
    | some r =>
      if needs_escalation r then
        let cd := get_or_create_customer db cid phone "Customer"
        let db2 := if writeFails then cd.2
                   else create_help_request cd.2 rid question cd.1.id none
        (handoffPhraseLong, db2)
      else (r, db)
    | none =>
      let cd := get_or_create_customer db cid phone "Customer"
      let db2 := if writeFails then cd.2
                 else create_help_request cd.2 rid question cd.1.id none
      (handoffPhraseShort, db2)

/-- `_transcribe_and_respond` after a successful transcription: strip the
text, run the three filter gates, and on pass hand the text to `_get_reply`.
Returns the spoken reply (`none` = silent drop) and the updated store. -/
def respond_step (db : DB) (phone transcription : String) (llmReply : Option String)
    (cid rid : String) (writeFails : Bool) : Option String × DB :=
  let text := String.mk (pyStripChars transcription.data)
  if text == "" then (none, db)
  else if passes_filter text then
    let rd := get_reply db phone text llmReply cid rid writeFails
    (some rd.1, rd.2)
  else (none, db)

/-! ### Supervisor callback poller (`start_supervisor_callback_poller`) -/

/-- The spoken follow-up for a resolved request. -/
def deliverMsg (r : HelpReq) : String :=
  "Great news! My supervisor says: " ++ r.supervisorAnswer.getD ""

/-- The poller's per-row precondition before the customer lookup:
`req['status'] == 'resolved' and req.get('supervisor_answer') and
req.get('caller_id')` (Python truthiness of the two strings). -/
def threeChecks (r : HelpReq) : Bool :=
  r.status == "resolved" && !(r.supervisorAnswer.getD "" == "")
    && !(r.callerId == "")

/-- The full delivery condition of a poll cycle for a snapshot row, given the
id `cId` of the active caller's customer: the three truthiness checks plus
`req['caller_id'] == customer['id']`. -/
def shouldDeliver (cId : String) (r : HelpReq) : Bool :=
  threeChecks r && r.callerId == cId

/-- The loop body of one poll cycle over the snapshot returned by
`get_all_requests`. For each snapshot row passing `threeChecks`, the active
caller's customer is looked up (or created) and, on id match, the follow-up
is spoken and the row is updated to `delivered`. `msgs` collects
`(request id, spoken text)`. -/
def pollLoop (snapshot : List HelpReq) (phone cid : String) (db : DB)
    (msgs : List (String × String)) : DB × List (String × String) :=
  match snapshot with
  | [] => (db, msgs)
  | r :: rest =>
    if threeChecks r then
      let cd := get_or_create_customer db cid phone "Customer"
      if r.callerId == cd.1.id then
        pollLoop rest phone cid (mark_delivered cd.2 r.id)
          (msgs ++ [(r.id, deliverMsg r)])
      else pollLoop rest phone cid cd.2 msgs
    else pollLoop rest phone cid db msgs

/-- One cycle of the in-call poller: iterate once over the DESC-ordered
snapshot of all help requests. -/
def poll_cycle (db : DB) (phone cid : String) : DB × List (String × String) :=
  pollLoop (get_all_requests db) phone cid db []

/-! ### Endpoint detector (`_capture_and_transcribe`)

Durations are exact sample counts at the canonical 16 kHz rate
(`duration_seconds * 16000`): 1.5 s = 24000 samples, 0.8 s = 12800 samples,
and the 8.0 s ceiling = 128000 samples. A frame is the resampled mono sample
list; energy is the mean absolute amplitude. -/

structure DetState where
  bufferSamples : Nat
  silenceSamples : Nat
  speechStarted : Bool
deriving DecidableEq, Repr

def detInit : DetState := ⟨0, 0, false⟩

/-- `np.abs(samples).mean() > 500` in exact integer form
`sum |samples| > 500 * n` (an empty frame yields NaN in numpy, which
compares false, matching `0 < 0` here). -/
def is_speech (frame : List Int) : Bool :=
  decide (500 * frame.length < (frame.map Int.natAbs).sum)

/-- One frame of the endpoint detector (the body of the capture loop when no
reply cycle is in flight; while one is in flight frames are skipped
entirely). Returns the new state and `some n` when an `n`-sample utterance is
emitted. Mirrors the source order: buffer extend, energy classification,
silence accumulation, the overflow check (`dur > 8.0`, then `continue`), then
the emission check (`dur >= 1.5 and silence >= 0.8`). On both overflow and
emission the buffer is cleared and `speech_started` reset, but `silence_dur`
keeps its value.

`detSil` is the per-frame `silence_dur` update: reset to 0 on a speech frame,
accumulated while speech has been seen, otherwise left alone. -/
def detSil (s : DetState) (frame : List Int) : Nat :=
  if is_speech frame then 0
  else if s.speechStarted then s.silenceSamples + frame.length
  else s.silenceSamples

/-- One frame of the endpoint detector proper (see the section comment; the
trailing-silence update is `detSil`). -/
def det_step (s : DetState) (frame : List Int) : DetState × Option Nat :=
  if decide (128000 < s.bufferSamples + frame.length) then
    (⟨0, detSil s frame, false⟩, none)
  else if (is_speech frame || s.speechStarted)
      && decide (24000 ≤ s.bufferSamples + frame.length)
      && decide (12800 ≤ detSil s frame) then
    (⟨0, detSil s frame, false⟩, some (s.bufferSamples + frame.length))
  else (⟨s.bufferSamples + frame.length, detSil s frame,
        is_speech frame || s.speechStarted⟩, none)

/-- The detector run over an inbound frame sequence from the initial state,
collecting the emitted utterance lengths. -/
def det_run (frames : List (List Int)) : DetState × List Nat :=
  frames.foldl
    (fun acc f =>
      let se := det_step acc.1 f
      (se.1, acc.2 ++ se.2.toList))
    (detInit, [])

/-! ## Dashboard (`src/web/dashboard.py`) -/

/-- The `/api/requests/<id>/answer` endpoint (and the POST branch of
`/request/<id>`): reject an empty answer, otherwise `resolve_request`
unconditionally, then look the row up in `get_all_requests` and, if found,
`add_knowledge(question, answer)` (the SMS callback is logging only). -/
def answer_request (db : DB) (rid answer : String) : DB :=
  if answer == "" then db
  else
    let db1 := resolve_request db rid answer
    match (get_all_requests db1).find? (fun r => r.id == rid) with
    | some r => add_knowledge db1 r.question answer
    | none => db1

/-! ## The store-mutating operations (for the status state machine) -/

/-- The operations that touch `help_requests`: request creation by the reply
resolver, `resolve_request` (the persistence interface), the dashboard answer
endpoints, and one poller cycle. -/
inductive AgentOp where
  | create (rid question callerId : String) (phone : Option String)
  | resolve (rid answer : String)
  | dashAnswer (rid answer : String)
  | poll (phone cid : String)
deriving DecidableEq, Repr

def applyOp (db : DB) : AgentOp → DB
  | .create rid q c p => create_help_request db rid q c p
  | .resolve rid a => resolve_request db rid a
  | .dashAnswer rid a => answer_request db rid a
  | .poll phone cid => (poll_cycle db phone cid).1

/-- The status of the (first) request row with a given id. -/
def statusOf (db : DB) (rid : String) : Option String :=
  (db.requests.find? (fun r => r.id == rid)).map (fun r => r.status)

/-! ## Specification-side helpers

These are not translations of source code; they name the quantities the
claims talk about, for use in theorem statements and proofs. -/

/-- The matching predicate of tier `t` of the KB matcher (`t ∈ [1,2,3,4]`). -/
def tierMatch : Nat → List Char → List Char → Bool
  | 1, q, k => tier1 q k
  | 2, q, k => tier2 q k
  | 3, q, k => tier3 q k
  | 4, q, k => tier4 q k
  | _, _, _ => false

/-- The id of the active caller's customer as the poll cycle resolves it:
the existing row for the phone if any, else the freshly created uuid. -/
def activeCid (db : DB) (cid phone : String) : String :=
  match db.customers.find? (fun c => c.phone == phone) with
  | some c => c.id
  | none => cid

/-- A request row with its status set to `delivered`. -/
def markOne (x : HelpReq) : HelpReq := { x with status := "delivered" }

/-- Mark every request whose id occurs in `ids` as delivered. -/
def markSet (ids : List String) (reqs : List HelpReq) : List HelpReq :=
  reqs.map (fun x => if ids.any (fun i => x.id == i) then markOne x else x)

/-! ## Concrete stores and frames used by witnesses and counterexamples -/

/-- A frame of `n` samples all of amplitude `v` (16-bit range in the source). -/
def constFrame (n : Nat) (v : Int) : List Int := List.replicate n v

/-- The store of the C9 counterexample: one resolved, answered help request
attributed to the customer of a *different* phone number, while the active
caller's phone has no customer row. -/
def dbC9 : DB :=
  ⟨[], [⟨"cX", "9990001111", "Customer"⟩],
   [⟨"r1", "is there parking", "cX", none, "resolved", some "Yes, in the back"⟩]⟩

/-- The store of the C2 witness: one customer and one pending request of that
customer. -/
def dbC2 : DB :=
  ⟨[], [⟨"c1", "5551234567", "Customer"⟩],
   [⟨"r1", "do you sell gift cards", "c1", none, "pending", none⟩]⟩

/-! ## Generic list lemmas -/

/-- `find?` returns `some x` exactly when the list splits as `l₁ ++ x :: l₂`
with `x` satisfying the predicate and everything before it failing it
(i.e. `x` is the earliest hit). -/
theorem find?_eq_some_split {α : Type} (p : α → Bool) (l : List α) (x : α) :
    l.find? p = some x ↔
      ∃ l₁ l₂, l = l₁ ++ x :: l₂ ∧ p x = true ∧ ∀ y ∈ l₁, p y = false := by
  induction l with
  | nil => simp
  | cons a as ih =>
    cases hpa : p a with
    | true =>
      rw [List.find?_cons_of_pos _ hpa]
      constructor
      · intro hx
        injection hx with hx
        subst hx
        exact ⟨[], as, rfl, hpa, by simp⟩
      · rintro ⟨l₁, l₂, heq, hx, hall⟩
        cases l₁ with
        | nil =>
          injection heq with h1 _
          rw [h1]
        | cons b bs =>
          injection heq with h1 _
          subst h1
          have hfalse := hall a (by simp)
          rw [hpa] at hfalse
          cases hfalse
    | false =>
      rw [List.find?_cons_of_neg _ (by simp [hpa])]
      rw [ih]
      constructor
      · rintro ⟨l₁, l₂, heq, hx, hall⟩
        refine ⟨a :: l₁, l₂, by rw [heq]; rfl, hx, ?_⟩
        intro y hy
        rcases List.mem_cons.mp hy with h | h
        · rw [h]; exact hpa
        · exact hall y h
      · rintro ⟨l₁, l₂, heq, hx, hall⟩
        cases l₁ with
        | nil =>
          injection heq with h1 h2
          subst h1
          rw [hx] at hpa
          cases hpa
        | cons b bs =>
          injection heq with h1 h2
          subst h1
          exact ⟨bs, l₂, h2, hx, fun y hy => hall y (List.mem_cons_of_mem _ hy)⟩

/-- `find?` commutes with mapping a function that does not change the key
the predicate looks at. -/
theorem find?_map_of_key {α : Type} (f : α → α) (key : α → Bool) (l : List α)
    (hf : ∀ x, key (f x) = key x) :
    (l.map f).find? key = (l.find? key).map f := by
  induction l with
  | nil => simp
  | cons a as ih =>
    cases hk : key a with
    | true =>
      rw [List.map_cons, List.find?_cons_of_pos _ (by rw [hf]; exact hk),
        List.find?_cons_of_pos _ hk]
      rfl
    | false =>
      rw [List.map_cons, List.find?_cons_of_neg _ (by simp [hf, hk]),
        List.find?_cons_of_neg _ (by simp [hk]), ih]

/-- Rows of a list with pairwise-distinct ids are determined by their id. -/
theorem eq_of_id_eq {l : List HelpReq} (h : (l.map HelpReq.id).Nodup)
    {x y : HelpReq} (hx : x ∈ l) (hy : y ∈ l) (hid : x.id = y.id) : x = y := by
  exact List.inj_on_of_nodup_map h hx hy hid

/-- In a list of rows with pairwise-distinct ids, `find?` by the id of a
member returns exactly that member. -/
theorem find?_id_of_nodup {l : List HelpReq} (h : (l.map HelpReq.id).Nodup)
    {r : HelpReq} (hr : r ∈ l) :
    l.find? (fun x => x.id == r.id) = some r := by
  cases hfind : l.find? (fun x => x.id == r.id) with
  | none =>
    rw [List.find?_eq_none] at hfind
    exact absurd (by simp : (r.id == r.id) = true) (by simpa using hfind r hr)
  | some y =>
    have hmem := List.mem_of_find?_eq_some hfind
    have hkey := List.find?_some hfind
    have : y = r := eq_of_id_eq h hmem hr (by simpa using hkey)
    rw [this]

/-! ## Poll cycle characterization -/

theorem get_or_create_found {db : DB} {phone : String} {c : Customer}
    (cid name : String)
    (hc : db.customers.find? (fun x => x.phone == phone) = some c) :
    get_or_create_customer db cid phone name = (c, db) := by
  unfold get_or_create_customer
  rw [hc]

theorem get_or_create_absent {db : DB} {phone : String} (cid name : String)
    (hc : db.customers.find? (fun x => x.phone == phone) = none) :
    get_or_create_customer db cid phone name =
      (⟨cid, phone, name⟩,
       { db with customers := db.customers ++ [⟨cid, phone, name⟩] }) := by
  unfold get_or_create_customer
  rw [hc]

theorem markOne_id (x : HelpReq) : (markOne x).id = x.id := rfl

theorem markOne_markOne (x : HelpReq) : markOne (markOne x) = markOne x := rfl

theorem mark_delivered_requests (db : DB) (rid : String) :
    (mark_delivered db rid).requests = markSet [rid] db.requests := by
  unfold mark_delivered markSet
  apply List.map_congr_left
  intro x _
  have : ([rid].any (fun i => x.id == i)) = (x.id == rid) := by
    simp [List.any_cons]
  rw [this]
  rfl

/-- Marking two id sets in sequence marks their union. -/
theorem markSet_markSet (ids₁ ids₂ : List String) (reqs : List HelpReq) :
    markSet ids₂ (markSet ids₁ reqs) = markSet (ids₁ ++ ids₂) reqs := by
  unfold markSet
  rw [List.map_map]
  apply List.map_congr_left
  intro x _
  show (fun y : HelpReq => if ids₂.any (fun i => y.id == i) then markOne y else y)
      (if ids₁.any (fun i => x.id == i) then markOne x else x)
    = if (ids₁ ++ ids₂).any (fun i => x.id == i) then markOne x else x
  by_cases h1 : ids₁.any (fun i => x.id == i) = true
  · have hm : ((ids₁ ++ ids₂).any (fun i => x.id == i)) = true := by
      rw [List.any_append, h1, Bool.true_or]
    rw [if_pos h1, if_pos hm]
    show (if ids₂.any (fun i => (markOne x).id == i) then markOne (markOne x)
          else markOne x) = markOne x
    rw [markOne_markOne]
    by_cases h2 : ids₂.any (fun i => (markOne x).id == i) = true
    · rw [if_pos h2]
    · rw [if_neg h2]
  · rw [if_neg h1]
    show (if ids₂.any (fun i => x.id == i) then markOne x else x)
      = if (ids₁ ++ ids₂).any (fun i => x.id == i) then markOne x else x
    by_cases h2 : ids₂.any (fun i => x.id == i) = true
    · have hm : ((ids₁ ++ ids₂).any (fun i => x.id == i)) = true := by
        rw [List.any_append, h2, Bool.or_true]
      rw [if_pos h2, if_pos hm]
    · have hm : ¬ ((ids₁ ++ ids₂).any (fun i => x.id == i)) = true := by
        rw [List.any_append]
        simp only [Bool.or_eq_true]
        rintro (h | h)
        · exact h1 h
        · exact h2 h
      rw [if_neg h2, if_neg hm]

/-- `markSet` with no ids is the identity. -/
theorem markSet_nil (reqs : List HelpReq) : markSet [] reqs = reqs := by
  simp [markSet]
/-- Marking does not change the sequence of ids. -/
theorem markSet_map_id (ids : List String) (reqs : List HelpReq) :
    (markSet ids reqs).map HelpReq.id = reqs.map HelpReq.id := by
  unfold markSet
  rw [List.map_map]
  apply List.map_congr_left
  intro a _
  simp only [Function.comp_apply]
  by_cases h : ids.any (fun i => a.id == i) = true
  · rw [if_pos h, markOne_id]
  · rw [if_neg h]

/-- The poll loop when the active phone already has a customer row `c`:
the store keeps its customers, every snapshot row passing `shouldDeliver c.id`
is marked delivered, and one follow-up per such row is spoken in order. -/
theorem pollLoop_found (S : List HelpReq) (phone cid : String) (c : Customer) :
    ∀ (db : DB) (msgs : List (String × String)),
      db.customers.find? (fun x => x.phone == phone) = some c →
      pollLoop S phone cid db msgs =
        ({ db with requests :=
            markSet ((S.filter (shouldDeliver c.id)).map HelpReq.id) db.requests },
         msgs ++ (S.filter (shouldDeliver c.id)).map (fun r => (r.id, deliverMsg r))) := by
  induction S with
  | nil =>
    intro db msgs _
    simp [pollLoop, markSet_nil]
  | cons r rest ih =>
    intro db msgs hc
    cases h3 : threeChecks r with
    | false =>
      have hsd : shouldDeliver c.id r = false := by simp [shouldDeliver, h3]
      simp only [pollLoop, h3, Bool.false_eq_true, if_false]
      rw [ih db msgs hc, List.filter_cons, hsd]
      simp
    | true =>
      simp only [pollLoop, h3, if_true]
      rw [get_or_create_found cid "Customer" hc]
      cases hcal : (r.callerId == c.id) with
      | false =>
        have hsd : shouldDeliver c.id r = false := by simp [shouldDeliver, hcal]
        simp only [hcal, Bool.false_eq_true, if_false]
        rw [ih db msgs hc, List.filter_cons, hsd]
        simp
      | true =>
        have hsd : shouldDeliver c.id r = true := by simp [shouldDeliver, h3, hcal]
        simp only [hcal, if_true]
        have hc2 : (mark_delivered db r.id).customers.find?
            (fun x => x.phone == phone) = some c := hc
        rw [ih (mark_delivered db r.id) (msgs ++ [(r.id, deliverMsg r)]) hc2,
          List.filter_cons, hsd]
        simp only [mark_delivered_requests, markSet_markSet, if_true]
        simp [mark_delivered, List.append_assoc]

/-- The poll loop when the active phone has no customer row: the first
snapshot row passing the three truthiness checks creates one, after which
delivery proceeds against the fresh id `cid`. If no row passes the checks the
store and outbound channel are untouched. -/
theorem pollLoop_absent (S : List HelpReq) (phone cid : String) :
    ∀ (db : DB) (msgs : List (String × String)),
      db.customers.find? (fun x => x.phone == phone) = none →
      pollLoop S phone cid db msgs =
        (if S.any threeChecks then
          ({ db with
              customers := db.customers ++ [⟨cid, phone, "Customer"⟩],
              requests :=
                markSet ((S.filter (shouldDeliver cid)).map HelpReq.id) db.requests },
           msgs ++ (S.filter (shouldDeliver cid)).map (fun r => (r.id, deliverMsg r)))
        else (db, msgs)) := by
  induction S with
  | nil =>
    intro db msgs _
    simp [pollLoop]
  | cons r rest ih =>
    intro db msgs hc
    cases h3 : threeChecks r with
    | false =>
      have hsd : shouldDeliver cid r = false := by simp [shouldDeliver, h3]
      simp only [pollLoop, h3, Bool.false_eq_true, if_false]
      rw [ih db msgs hc, List.any_cons, h3, List.filter_cons, hsd]
      simp
    | true =>
      simp only [pollLoop, h3, if_true]
      rw [get_or_create_absent cid "Customer" hc]
      have hc2 : ({ db with
          customers := db.customers ++ [⟨cid, phone, "Customer"⟩] } : DB).customers.find?
          (fun x => x.phone == phone) = some ⟨cid, phone, "Customer"⟩ := by
        simp only []
        rw [List.find?_append, hc]
        simp [List.find?]
      cases hcal : (r.callerId == cid) with
      | false =>
        have hsd : shouldDeliver cid r = false := by simp [shouldDeliver, hcal]
        simp only [hcal, Bool.false_eq_true, if_false]
        rw [pollLoop_found rest phone cid ⟨cid, phone, "Customer"⟩ _ msgs hc2,
          List.any_cons, h3, List.filter_cons, hsd]
        simp
      | true =>
        have hsd : shouldDeliver cid r = true := by simp [shouldDeliver, h3, hcal]
        simp only [hcal, if_true]
        have hc3 : (mark_delivered { db with
            customers := db.customers ++ [⟨cid, phone, "Customer"⟩] } r.id).customers.find?
            (fun x => x.phone == phone) = some ⟨cid, phone, "Customer"⟩ := hc2
        rw [pollLoop_found rest phone cid ⟨cid, phone, "Customer"⟩ _
            (msgs ++ [(r.id, deliverMsg r)]) hc3,
          List.any_cons, h3, List.filter_cons, hsd]
        simp only [mark_delivered_requests, markSet_markSet, Bool.true_or, if_true]
        simp [mark_delivered, List.append_assoc]

/-- With pairwise-distinct ids, marking the ids collected from a filtered
rearrangement of the list is the pointwise conditional update. -/
theorem markSet_eq_map_of_nodup (p : HelpReq → Bool) (l S : List HelpReq)
    (hids : (l.map HelpReq.id).Nodup) (hS : ∀ x, x ∈ S ↔ x ∈ l) :
    markSet ((S.filter p).map HelpReq.id) l =
      l.map (fun x => if p x then markOne x else x) := by
  unfold markSet
  apply List.map_congr_left
  intro x hx
  have hcond : (((S.filter p).map HelpReq.id).any (fun i => x.id == i)) = p x := by
    cases hp : p x with
    | true =>
      have hxS : x ∈ S.filter p := List.mem_filter.mpr ⟨(hS x).mpr hx, hp⟩
      have : x.id ∈ (S.filter p).map HelpReq.id := List.mem_map_of_mem _ hxS
      simp only [List.any_eq_true]
      exact ⟨x.id, this, by simp⟩
    | false =>
      rw [List.any_eq_false]
      intro i hi
      rcases List.mem_map.mp hi with ⟨y, hy, hyid⟩
      rcases List.mem_filter.mp hy with ⟨hyS, hyp⟩
      have hyl : y ∈ l := (hS y).mp hyS
      intro hbeq
      have hxy : x = y := eq_of_id_eq hids hx hyl (by simpa [hyid] using hbeq)
      rw [hxy, hyp] at hp
      cases hp
  rw [hcond]

/-- One poll cycle leaves the knowledge base untouched. -/
theorem poll_cycle_kb (db : DB) (phone cid : String) :
    (poll_cycle db phone cid).1.kb = db.kb := by
  unfold poll_cycle
  cases hc : db.customers.find? (fun x => x.phone == phone) with
  | some c => rw [pollLoop_found _ phone cid c db [] hc]
  | none =>
    rw [pollLoop_absent _ phone cid db [] hc]
    by_cases h : (get_all_requests db).any threeChecks = true
    · rw [if_pos h]
    · rw [if_neg h]

/-- One poll cycle can only change the customers table by creating the active
caller's row, and only when some listed request passes the three truthiness
checks while the phone has no row yet. -/
theorem poll_cycle_customers (db : DB) (phone cid : String) :
    (poll_cycle db phone cid).1.customers =
      if (db.customers.find? (fun x => x.phone == phone)).isSome then db.customers
      else if (get_all_requests db).any threeChecks then
        db.customers ++ [⟨cid, phone, "Customer"⟩]
      else db.customers := by
  unfold poll_cycle
  cases hc : db.customers.find? (fun x => x.phone == phone) with
  | some c =>
    rw [pollLoop_found _ phone cid c db [] hc]
    simp [hc]
  | none =>
    rw [pollLoop_absent _ phone cid db [] hc]
    by_cases h : (get_all_requests db).any threeChecks = true
    · rw [if_pos h]
      simp [hc, h]
    · rw [if_neg h]
      simp [hc, h]

/-- The follow-ups spoken by one poll cycle: one per DESC-ordered listed
request satisfying the delivery condition for the active caller's customer id. -/
theorem poll_cycle_msgs (db : DB) (phone cid : String) :
    (poll_cycle db phone cid).2 =
      ((get_all_requests db).filter (shouldDeliver (activeCid db cid phone))).map
        (fun r => (r.id, deliverMsg r)) := by
  unfold poll_cycle activeCid
  cases hc : db.customers.find? (fun x => x.phone == phone) with
  | some c =>
    rw [pollLoop_found _ phone cid c db [] hc]
    simp
  | none =>
    rw [pollLoop_absent _ phone cid db [] hc]
    by_cases h : (get_all_requests db).any threeChecks = true
    · rw [if_pos h]
      simp
    · rw [if_neg h]
      have hfilter : (get_all_requests db).filter (shouldDeliver cid) = [] := by
        rw [List.filter_eq_nil_iff]
        intro x hxmem hx
        have h3 : threeChecks x = true := by
          simp only [shouldDeliver, Bool.and_eq_true] at hx
          exact hx.1
        exact h (List.any_eq_true.mpr ⟨x, hxmem, h3⟩)
      rw [hfilter]
      rfl

/-- The help-request table after one poll cycle: with pairwise-distinct ids,
each row satisfying the delivery condition is marked delivered, all other
rows are untouched. -/
theorem poll_cycle_requests (db : DB) (phone cid : String)
    (hids : (db.requests.map HelpReq.id).Nodup) :
    (poll_cycle db phone cid).1.requests =
      db.requests.map (fun x =>
        if shouldDeliver (activeCid db cid phone) x then markOne x else x) := by
  unfold poll_cycle activeCid
  cases hc : db.customers.find? (fun x => x.phone == phone) with
  | some c =>
    rw [pollLoop_found _ phone cid c db [] hc]
    exact markSet_eq_map_of_nodup _ _ _ hids (fun x => List.mem_reverse)
  | none =>
    rw [pollLoop_absent _ phone cid db [] hc]
    by_cases h : (get_all_requests db).any threeChecks = true
    · rw [if_pos h]
      exact markSet_eq_map_of_nodup _ _ _ hids (fun x => List.mem_reverse)
    · rw [if_neg h]
      have hnone : ∀ x ∈ db.requests, shouldDeliver cid x = false := by
        intro x hx
        cases hsd : shouldDeliver cid x with
        | false => rfl
        | true =>
          have h3 : threeChecks x = true := by
            simp only [shouldDeliver, Bool.and_eq_true] at hsd
            exact hsd.1
          exact absurd (List.any_eq_true.mpr
            ⟨x, List.mem_reverse.mpr hx, h3⟩) h
      have : db.requests.map (fun x =>
          if shouldDeliver cid x then markOne x else x) = db.requests := by
        conv_rhs => rw [← List.map_id db.requests]
        apply List.map_congr_left
        intro x hx
        rw [hnone x hx]
        rfl
      rw [this]

/-- Components of `get_or_create_customer` needed by the reply resolver: the
returned customer carries the requested phone, it is present in the resulting
customers table, and the other tables are untouched. -/
theorem get_or_create_customer_spec (db : DB) (cid phone name : String) :
    (get_or_create_customer db cid phone name).1.phone = phone ∧
    (get_or_create_customer db cid phone name).1 ∈
      (get_or_create_customer db cid phone name).2.customers ∧
    (get_or_create_customer db cid phone name).2.requests = db.requests ∧
    (get_or_create_customer db cid phone name).2.kb = db.kb := by
  cases hc : db.customers.find? (fun c => c.phone == phone) with
  | some c =>
    rw [get_or_create_found cid name hc]
    exact ⟨by simpa using List.find?_some hc, List.mem_of_find?_eq_some hc, rfl, rfl⟩
  | none =>
    rw [get_or_create_absent cid name hc]
    exact ⟨rfl, by simp, rfl, rfl⟩

/-! ## Claim theorems -/

/-- C6 (confirmed): the transcript filter always drops the transcripts "um",
"yes" and "ok" — silently, producing no reply and leaving the store (hence
any escalation state) unchanged — and always passes "What are your hours?"
on to the reply resolver. ("um" and "ok" fall to the minimum-length gate,
"yes" to the noise-token gate.) -/
theorem C6_transcript_filter (db : DB) (phone : String) (llmReply : Option String)
    (cid rid : String) (wf : Bool) :
    passes_filter "um" = false ∧ passes_filter "yes" = false ∧
    passes_filter "ok" = false ∧ passes_filter "What are your hours?" = true ∧
    respond_step db phone "um" llmReply cid rid wf = (none, db) ∧
    respond_step db phone "yes" llmReply cid rid wf = (none, db) ∧
    respond_step db phone "ok" llmReply cid rid wf = (none, db) ∧
    respond_step db phone "What are your hours?" llmReply cid rid wf =
      (some (get_reply db phone "What are your hours?" llmReply cid rid wf).1,
       (get_reply db phone "What are your hours?" llmReply cid rid wf).2) :=
  ⟨by decide, by decide, by decide, by decide, rfl, rfl, rfl, rfl⟩

/-- C7 counterexample: against the seeded knowledge base, "what are your
hours" and "when are you open" each hit a different seeded row (both via the
exact tier), so they do **not** resolve to the same seeded hours answer. -/
theorem C7_counterexample :
    get_answer seedData "what are your hours" =
      some "We\x27re open Monday to Friday 9AM-7PM, Saturday 10AM-5PM" ∧
    get_answer seedData "when are you open" =
      some "Our hours are Monday-Friday 9AM-7PM, Saturday 10AM-5PM" ∧
    get_answer seedData "what are your hours" ≠
      get_answer seedData "when are you open" :=
  ⟨by decide, by decide, by decide⟩

/-- C7 (amended): against the seeded knowledge base, "what are your hours"
and "when are you open" each resolve through `get_answer` to their own seeded
hours answer (two distinct seeded strings both stating the business hours),
while the wholly unrelated query "xyz" returns no match from every tier and
falls through to generative resolution: the reply is then determined entirely
by the generative outcome (the reply itself, or a hand-off on escalation or
failure). -/
theorem C7_seeded_kb :
    get_answer seedData "what are your hours" =
      some "We\x27re open Monday to Friday 9AM-7PM, Saturday 10AM-5PM" ∧
    get_answer seedData "when are you open" =
      some "Our hours are Monday-Friday 9AM-7PM, Saturday 10AM-5PM" ∧
    get_answer seedData "xyz" = none ∧
    (∀ phone cid rid wf r,
      (get_reply (init_db emptyDB) phone "xyz" (some r) cid rid wf).1 =
        if needs_escalation r then handoffPhraseLong else r) ∧
    (∀ phone cid rid wf,
      (get_reply (init_db emptyDB) phone "xyz" none cid rid wf).1 =
        handoffPhraseShort) := by
  have hxyz : get_answer (init_db emptyDB).kb "xyz" = none := by decide
  refine ⟨by decide, by decide, by decide, ?_, ?_⟩
  · intro phone cid rid wf r
    simp only [get_reply, hxyz]
    by_cases h : needs_escalation r = true
    · simp only [if_pos h]
    · simp only [if_neg h]
  · intro phone cid rid wf
    simp only [get_reply, hxyz]

/-- C1 counterexample: the detected-escalation branch and the
generative-failure branch return two different hand-off phrases, so there is
no single fixed hand-off phrase covering both cases of the claim. -/
theorem C1_counterexample :
    (get_reply emptyDB "5551234567" "how late is parking open"
        (some "I\x27m not sure, let me check with my supervisor.")
        "c1" "r1" false).1 ≠
    (get_reply emptyDB "5551234567" "how late is parking open"
        none "c1" "r1" false).1 := by
  decide

/-- C1 (amended): on a KB miss, whenever the generative reply contains an
escalation phrase — or the generative call fails outright — the reply
resolver creates exactly one HelpRequest with status `pending` for the
caller's customer (looked up or created by phone number) and returns a fixed
hand-off phrase: one fixed phrase in the detected-escalation case and a
second, shorter fixed phrase in the failure case. When the help-request write
itself raises, the same phrase is still returned and no request row is
created. In every case at most one HelpRequest is created per resolved
utterance. -/
theorem C1_escalation_handoff (db : DB) (phone question : String)
    (llmReply : Option String) (cid rid : String) (wf : Bool) :
    ((get_reply db phone question llmReply cid rid wf).2.requests = db.requests ∨
      ∃ c, c ∈ (get_reply db phone question llmReply cid rid wf).2.customers ∧
        c.phone = phone ∧
        (get_reply db phone question llmReply cid rid wf).2.requests =
          db.requests ++ [⟨rid, question, c.id, none, "pending", none⟩]) ∧
    (get_answer db.kb question = none →
      (∀ r, llmReply = some r → needs_escalation r = true →
        (get_reply db phone question llmReply cid rid wf).1 = handoffPhraseLong) ∧
      (llmReply = none →
        (get_reply db phone question llmReply cid rid wf).1 = handoffPhraseShort) ∧
      (wf = false →
        (llmReply = none ∨ ∃ r, llmReply = some r ∧ needs_escalation r = true) →
        ∃ c, c ∈ (get_reply db phone question llmReply cid rid wf).2.customers ∧
          c.phone = phone ∧
          (get_reply db phone question llmReply cid rid wf).2.requests =
            db.requests ++ [⟨rid, question, c.id, none, "pending", none⟩]) ∧
      (wf = true →
        (get_reply db phone question llmReply cid rid wf).2.requests =
          db.requests) ∧
      (∀ r, llmReply = some r → needs_escalation r = false →
        get_reply db phone question llmReply cid rid wf = (r, db))) := by
  obtain ⟨hph, hmem, hreq, _⟩ := get_or_create_customer_spec db cid phone "Customer"
  cases hkb : get_answer db.kb question with
  | some a =>
    constructor
    · left
      simp [get_reply, hkb]
    · intro h
      simp [hkb] at h
  | none =>
    cases llmReply with
    | none =>
      cases wf with
      | false =>
        have hout : get_reply db phone question none cid rid false =
            (handoffPhraseShort,
             create_help_request (get_or_create_customer db cid phone "Customer").2
               rid question (get_or_create_customer db cid phone "Customer").1.id
               none) := by
          simp [get_reply, hkb]
        rw [hout]
        refine ⟨Or.inr ⟨(get_or_create_customer db cid phone "Customer").1, ?_, hph, ?_⟩,
          fun _ => ⟨?_, ?_, ?_, ?_, ?_⟩⟩
        · simpa [create_help_request] using hmem
        · simp [create_help_request, hreq]
        · intro r hr
          exact Option.noConfusion hr
        · intro _
          rfl
        · intro _ _
          exact ⟨(get_or_create_customer db cid phone "Customer").1,
            by simpa [create_help_request] using hmem, hph,
            by simp [create_help_request, hreq]⟩
        · intro h
          exact Bool.noConfusion h
        · intro r hr
          exact Option.noConfusion hr
      | true =>
        have hout : get_reply db phone question none cid rid true =
            (handoffPhraseShort,
             (get_or_create_customer db cid phone "Customer").2) := by
          simp [get_reply, hkb]
        rw [hout]
        refine ⟨Or.inl hreq, fun _ => ⟨?_, ?_, ?_, ?_, ?_⟩⟩
        · intro r hr
          exact Option.noConfusion hr
        · intro _
          rfl
        · intro h
          exact Bool.noConfusion h
        · intro _
          exact hreq
        · intro r hr
          exact Option.noConfusion hr
    | some r =>
      cases hesc : needs_escalation r with
      | false =>
        have hout : get_reply db phone question (some r) cid rid wf = (r, db) := by
          simp [get_reply, hkb, hesc]
        rw [hout]
        refine ⟨Or.inl rfl, fun _ => ⟨?_, ?_, ?_, ?_, ?_⟩⟩
        · intro r2 hr2 hesc2
          injection hr2 with hr2
          rw [← hr2] at hesc2
          rw [hesc2] at hesc
          exact Bool.noConfusion hesc
        · intro h
          exact Option.noConfusion h
        · intro _ hcase
          rcases hcase with h | ⟨r2, hr2, hesc2⟩
          · exact Option.noConfusion h
          · injection hr2 with hr2
            rw [← hr2] at hesc2
            rw [hesc2] at hesc
            exact Bool.noConfusion hesc
        · intro _
          rfl
        · intro r2 hr2 _
          injection hr2 with hr2
          rw [hr2]
      | true =>
        cases wf with
        | false =>
          have hout : get_reply db phone question (some r) cid rid false =
              (handoffPhraseLong,
               create_help_request (get_or_create_customer db cid phone "Customer").2
                 rid question (get_or_create_customer db cid phone "Customer").1.id
                 none) := by
            simp [get_reply, hkb, hesc]
          rw [hout]
          refine ⟨Or.inr ⟨(get_or_create_customer db cid phone "Customer").1, ?_, hph, ?_⟩,
            fun _ => ⟨?_, ?_, ?_, ?_, ?_⟩⟩
          · simpa [create_help_request] using hmem
          · simp [create_help_request, hreq]
          · intro r2 _ _
            rfl
          · intro h
            exact Option.noConfusion h
          · intro _ _
            exact ⟨(get_or_create_customer db cid phone "Customer").1,
              by simpa [create_help_request] using hmem, hph,
              by simp [create_help_request, hreq]⟩
          · intro h
            exact Bool.noConfusion h
          · intro r2 hr2 hesc2
            injection hr2 with hr2
            rw [← hr2] at hesc2
            rw [hesc2] at hesc
            exact Bool.noConfusion hesc
        | true =>
          have hout : get_reply db phone question (some r) cid rid true =
              (handoffPhraseLong,
               (get_or_create_customer db cid phone "Customer").2) := by
            simp [get_reply, hkb, hesc]
          rw [hout]
          refine ⟨Or.inl hreq, fun _ => ⟨?_, ?_, ?_, ?_, ?_⟩⟩
          · intro r2 _ _
            rfl
          · intro h
            exact Option.noConfusion h
          · intro h
            exact Bool.noConfusion h
          · intro _
            exact hreq
          · intro r2 hr2 hesc2
            injection hr2 with hr2
            rw [← hr2] at hesc2
            rw [hesc2] at hesc
            exact Bool.noConfusion hesc

/-- C1 witness: the amended theorem applied to a concrete run — empty store,
a generative reply containing "not sure", a successful write — yields the
longer hand-off phrase and exactly the one pending request for the created
customer. -/
theorem C1_escalation_handoff_witness :
    (get_reply emptyDB "5551234567" "how late is parking open"
        (some "I\x27m not sure, let me check with my supervisor.")
        "c1" "r1" false).1 = handoffPhraseLong ∧
    ∃ c, c ∈ (get_reply emptyDB "5551234567" "how late is parking open"
        (some "I\x27m not sure, let me check with my supervisor.")
        "c1" "r1" false).2.customers ∧
      c.phone = "5551234567" ∧
      (get_reply emptyDB "5551234567" "how late is parking open"
        (some "I\x27m not sure, let me check with my supervisor.")
        "c1" "r1" false).2.requests =
        emptyDB.requests ++
          [⟨"r1", "how late is parking open", c.id, none, "pending", none⟩] := by
  have h := C1_escalation_handoff emptyDB "5551234567" "how late is parking open"
    (some "I\x27m not sure, let me check with my supervisor.") "c1" "r1" false
  have h2 := h.2 (by decide)
  exact ⟨h2.1 _ rfl (by decide), h2.2.2.1 rfl (Or.inr ⟨_, rfl, by decide⟩)⟩

-- Cross-checks of the difflib and string models against concrete CPython outputs.
example : smMatches "abcd".data "bcde".data = 3 := by decide
example : smMatches "can i bring my dog".data "walk ins".data = 4 := by decide
example : smMatches "what are your hours".data "when are you open".data = 12 := by decide
example : pySplit "  what are  your hours ".data =
    ["what".data, "are".data, "your".data, "hours".data] := by decide
example : collapseWs "a  b \t c".data = "a b c".data := by decide
example : isSubstr "bc".data "abcd".data = true := by decide
example : isSubstr "".data "abcd".data = true := by decide
example : isSubstr "ca".data "abcd".data = false := by decide

-- Cross-checks of `get_answer` against the CPython implementation on the seeded KB.
example : get_answer seedData "What are your hours?" =
    some "We\x27re open Monday to Friday 9AM-7PM, Saturday 10AM-5PM" := by decide
example : get_answer seedData "when are you open" =
    some "Our hours are Monday-Friday 9AM-7PM, Saturday 10AM-5PM" := by decide
example : get_answer seedData "xyz" = none := by decide
example : passes_filter "um" = false := by decide
example : passes_filter "yes" = false := by decide
example : passes_filter "ok" = false := by decide
example : passes_filter "What are your hours?" = true := by decide
example : needs_escalation "I\x27m not sure, let me check with my supervisor." = true := by decide
example : needs_escalation "Haircuts start at $45." = false := by decide

theorem length_constFrame (n : Nat) (v : Int) : (constFrame n v).length = n := by
  simp [constFrame]

theorem is_speech_constFrame (n : Nat) (v : Int) :
    is_speech (constFrame n v) = decide (500 * n < n * v.natAbs) := by
  simp [is_speech, constFrame, List.map_replicate, List.sum_replicate, smul_eq_mul]

theorem detSil_constFrame_speech (s : DetState) (n : Nat) :
    detSil s (constFrame n 600) = if 500 * n < n * 600 then 0
      else if s.speechStarted then s.silenceSamples + n else s.silenceSamples := by
  unfold detSil
  rw [is_speech_constFrame, length_constFrame]
  norm_num

/-- C4 counterexample: a frame sequence that overflows the 8-second ceiling —
125000 samples (7.8125 s) of amplitude-600 speech followed by 5000 samples
(0.3125 s) of silence, 8.125 s in total — is discarded with no emission, but
the resulting state is **not** the fully cleared `Idle` state: the
trailing-silence accumulator still holds the 5000 silence samples. -/
theorem C4_counterexample :
    det_run [constFrame 125000 600, constFrame 5000 0] = (⟨0, 5000, false⟩, []) ∧
    (⟨0, 5000, false⟩ : DetState) ≠ detInit := by
  constructor
  · have h1 : det_step detInit (constFrame 125000 600) = (⟨125000, 0, true⟩, none) := by
      unfold det_step detSil
      rw [is_speech_constFrame, length_constFrame]
      norm_num [detInit]
    have h2 : det_step ⟨125000, 0, true⟩ (constFrame 5000 0) = (⟨0, 5000, false⟩, none) := by
      unfold det_step detSil
      rw [is_speech_constFrame, length_constFrame]
      norm_num
    simp [det_run, h1, h2]
  · decide

/-- C4 (amended): per inbound frame, the detector emits an utterance exactly
when speech has been seen, the buffered duration is at least 1.5 s (24000
samples), the trailing silence is at least 0.8 s (12800 samples), and the
buffered duration does not exceed the 8.0 s ceiling (128000 samples); the
emitted utterance is the whole buffer. When the ceiling is exceeded the
detector discards the buffer and clears the speech-seen flag with no
emission, but the trailing-silence accumulator is **not** reset — it keeps
the value `detSil s frame` (harmless for emission, since a later emission
requires a speech frame, which zeroes it). -/
theorem C4_endpoint_detector (s : DetState) (frame : List Int) :
    ((det_step s frame).2 ≠ none ↔
      ((is_speech frame || s.speechStarted) = true ∧
       s.bufferSamples + frame.length ≤ 128000 ∧
       24000 ≤ s.bufferSamples + frame.length ∧
       12800 ≤ detSil s frame)) ∧
    (∀ n, (det_step s frame).2 = some n → n = s.bufferSamples + frame.length) ∧
    (128000 < s.bufferSamples + frame.length →
      det_step s frame = (⟨0, detSil s frame, false⟩, none)) := by
  unfold det_step
  by_cases h1 : 128000 < s.bufferSamples + frame.length
  · rw [if_pos (decide_eq_true h1)]
    refine ⟨⟨fun h => absurd rfl h, ?_⟩, fun n h => Option.noConfusion h, fun _ => rfl⟩
    rintro ⟨_, hle, _, _⟩
    omega
  · rw [if_neg (by simpa using h1)]
    by_cases h2 : ((is_speech frame || s.speechStarted)
        && decide (24000 ≤ s.bufferSamples + frame.length)
        && decide (12800 ≤ detSil s frame)) = true
    · rw [if_pos h2]
      have h2' := h2
      simp only [Bool.and_eq_true, decide_eq_true_eq] at h2'
      refine ⟨⟨fun _ => ⟨h2'.1.1, by omega, h2'.1.2, h2'.2⟩, fun _ => by simp⟩,
        fun n h => ?_, fun hc => absurd hc h1⟩
      injection h with h
      exact h.symm
    · rw [if_neg h2]
      refine ⟨⟨fun h => absurd rfl h, ?_⟩, fun n h => Option.noConfusion h,
        fun hc => absurd hc h1⟩
      rintro ⟨ha, _, hb, hc⟩
      exact absurd (by
        simp only [Bool.and_eq_true, decide_eq_true_eq]
        exact ⟨⟨ha, hb⟩, hc⟩) h2

/-- C4 witness: the overflow part of the amended theorem at the concrete
state reached after 7.8125 s of speech, fed 0.3125 s of silence: the step
discards the buffer with no emission and the retained silence accumulator
evaluates to 5000 samples, not 0. -/
theorem C4_endpoint_detector_witness :
    det_step ⟨125000, 0, true⟩ (constFrame 5000 0) =
      (⟨0, detSil ⟨125000, 0, true⟩ (constFrame 5000 0), false⟩, none) ∧
    detSil ⟨125000, 0, true⟩ (constFrame 5000 0) = 5000 := by
  constructor
  · exact (C4_endpoint_detector ⟨125000, 0, true⟩ (constFrame 5000 0)).2.2
      (by rw [length_constFrame]; show (128000 : Nat) < 125000 + 5000; norm_num)
  · unfold detSil
    rw [is_speech_constFrame, length_constFrame]
    norm_num


/-- C9 counterexample: in `dbC9` no listed request is both resolved and
attributed to the active caller's ("5551234567") customer — that phone has no
customer row at all — yet one poll cycle changes the persisted store: it
creates a customer row for the active phone. -/
theorem C9_counterexample :
    (dbC9.requests.all (fun r =>
      !(r.status == "resolved" &&
        dbC9.customers.any (fun c => c.phone == "5551234567" && r.callerId == c.id)))) =
      true ∧
    (poll_cycle dbC9 "5551234567" "cNew").1.customers ≠ dbC9.customers ∧
    (poll_cycle dbC9 "5551234567" "cNew").1.customers =
      dbC9.customers ++ [⟨"cNew", "5551234567", "Customer"⟩] :=
  ⟨by decide, by decide, by decide⟩

/-- C9 (amended): a poll cycle in which no listed HelpRequest is both
`resolved` and attributed to the active caller's customer performs no
help-request update, speaks nothing, and leaves the knowledge base and all
existing rows unchanged. The one possible store change is the creation of a
customer row for the active phone, which happens exactly when some listed
request passes the poller's three truthiness checks (resolved, non-empty
answer, non-empty caller — necessarily another customer's request) while the
active phone has no customer row yet. (`hfresh` says the fresh uuid drawn
for that row does not collide with any stored caller id.) -/
theorem C9_no_match_poll (db : DB) (phone cid : String)
    (hids : (db.requests.map HelpReq.id).Nodup)
    (hfresh : ∀ r ∈ db.requests, r.callerId ≠ cid)
    (hmatch : ∀ r ∈ db.requests,
      ¬(r.status = "resolved" ∧
        ∃ c ∈ db.customers, c.phone = phone ∧ r.callerId = c.id)) :
    (poll_cycle db phone cid).1.requests = db.requests ∧
    (poll_cycle db phone cid).2 = [] ∧
    (poll_cycle db phone cid).1.kb = db.kb ∧
    ((poll_cycle db phone cid).1.customers = db.customers ∨
      ((poll_cycle db phone cid).1.customers =
        db.customers ++ [⟨cid, phone, "Customer"⟩] ∧
       db.customers.find? (fun c => c.phone == phone) = none ∧
       (get_all_requests db).any threeChecks = true)) := by
  have hsd : ∀ x ∈ db.requests, shouldDeliver (activeCid db cid phone) x = false := by
    intro x hx
    cases hsdx : shouldDeliver (activeCid db cid phone) x with
    | false => rfl
    | true =>
      exfalso
      unfold shouldDeliver threeChecks at hsdx
      simp only [Bool.and_eq_true] at hsdx
      obtain ⟨⟨⟨hst, _⟩, _⟩, hcid⟩ := hsdx
      have hst2 : x.status = "resolved" := by simpa using hst
      have hcid2 : x.callerId = activeCid db cid phone := by simpa using hcid
      unfold activeCid at hcid2
      cases hc : db.customers.find? (fun c => c.phone == phone) with
      | some c =>
        rw [hc] at hcid2
        exact hmatch x hx ⟨hst2, c, List.mem_of_find?_eq_some hc,
          by simpa using List.find?_some hc, hcid2⟩
      | none =>
        rw [hc] at hcid2
        exact hfresh x hx hcid2
  refine ⟨?_, ?_, poll_cycle_kb db phone cid, ?_⟩
  · rw [poll_cycle_requests db phone cid hids]
    conv_rhs => rw [← List.map_id db.requests]
    apply List.map_congr_left
    intro x hx
    rw [hsd x hx]
    rfl
  · rw [poll_cycle_msgs db phone cid]
    have hnil : (get_all_requests db).filter (shouldDeliver (activeCid db cid phone))
        = [] := by
      rw [List.filter_eq_nil_iff]
      intro x hxmem
      have hx : x ∈ db.requests := by
        unfold get_all_requests at hxmem
        exact List.mem_reverse.mp hxmem
      rw [hsd x hx]
      simp
    rw [hnil]
    rfl
  · rw [poll_cycle_customers db phone cid]
    cases hc : db.customers.find? (fun c => c.phone == phone) with
    | some c =>
      left
      rfl
    | none =>
      by_cases hany : (get_all_requests db).any threeChecks = true
      · right
        exact ⟨by simp [hany], rfl, hany⟩
      · left
        simp [hany]

/-- C9 witness: the amended theorem applied to the concrete store `dbC9`
(one resolved request of another customer, active phone without a row). -/
theorem C9_no_match_poll_witness :
    (poll_cycle dbC9 "5551234567" "cNew").1.requests = dbC9.requests ∧
    (poll_cycle dbC9 "5551234567" "cNew").2 = [] ∧
    (poll_cycle dbC9 "5551234567" "cNew").1.kb = dbC9.kb ∧
    ((poll_cycle dbC9 "5551234567" "cNew").1.customers = dbC9.customers ∨
      ((poll_cycle dbC9 "5551234567" "cNew").1.customers =
        dbC9.customers ++ [⟨"cNew", "5551234567", "Customer"⟩] ∧
       dbC9.customers.find? (fun c => c.phone == "5551234567") = none ∧
       (get_all_requests dbC9).any threeChecks = true)) :=
  C9_no_match_poll dbC9 "5551234567" "cNew" (by decide) (by decide) (by decide)

/-! ## Round trip: resolve, then poll (C2) -/

/-- Mapping an id-preserving function does not change the id sequence. -/
theorem map_id_preserved {f : HelpReq → HelpReq} (hf : ∀ x, (f x).id = x.id)
    (l : List HelpReq) : (l.map f).map HelpReq.id = l.map HelpReq.id := by
  rw [List.map_map]
  apply List.map_congr_left
  intro x _
  exact hf x

theorem resolve_request_map_id (db : DB) (rid ans : String) :
    (resolve_request db rid ans).requests.map HelpReq.id =
      db.requests.map HelpReq.id := by
  unfold resolve_request
  exact map_id_preserved (fun x => by
    by_cases hx : (x.id == rid) = true
    · rw [if_pos hx]
    · rw [if_neg hx]) db.requests

/-- In a list of rows with pairwise-distinct ids, filtering by the id of a
member keeps exactly that member. -/
theorem filter_id_singleton {l : List HelpReq} (h : (l.map HelpReq.id).Nodup)
    {r : HelpReq} (hr : r ∈ l) :
    l.filter (fun x => x.id == r.id) = [r] := by
  induction l with
  | nil => cases hr
  | cons a as ih =>
    rw [List.map_cons, List.nodup_cons] at h
    rcases List.mem_cons.mp hr with rfl | hmem
    · rw [List.filter_cons_of_pos (by simp)]
      congr 1
      rw [List.filter_eq_nil_iff]
      intro x hx hbeq
      have hxid : x.id = r.id := by simpa using hbeq
      exact h.1 (hxid ▸ List.mem_map_of_mem HelpReq.id hx)
    · by_cases haid : (a.id == r.id) = true
      · exfalso
        have hmm : r.id ∈ as.map HelpReq.id := List.mem_map_of_mem _ hmem
        have haid2 : a.id = r.id := by simpa using haid
        rw [← haid2] at hmm
        exact h.1 hmm
      · rw [List.filter_cons_of_neg (by simpa using haid)]
        exact ih h.2 hmem

theorem find?_append_none {α : Type} {p : α → Bool} {l₁ : List α}
    (h : l₁.find? p = none) (l₂ : List α) :
    (l₁ ++ l₂).find? p = l₂.find? p := by
  induction l₁ with
  | nil => rfl
  | cons a as ih =>
    cases hpa : p a with
    | true =>
      rw [List.find?_cons_of_pos _ hpa] at h
      exact Option.noConfusion h
    | false =>
      rw [List.find?_cons_of_neg _ (by simp [hpa])] at h
      rw [List.cons_append, List.find?_cons_of_neg _ (by simp [hpa])]
      exact ih h

theorem find?_append_some {α : Type} {p : α → Bool} {l₁ : List α} {x : α}
    (h : l₁.find? p = some x) (l₂ : List α) :
    (l₁ ++ l₂).find? p = some x := by
  induction l₁ with
  | nil => exact Option.noConfusion h
  | cons a as ih =>
    cases hpa : p a with
    | true =>
      rw [List.find?_cons_of_pos _ hpa] at h
      rw [List.cons_append, List.find?_cons_of_pos _ hpa]
      exact h
    | false =>
      rw [List.find?_cons_of_neg _ (by simp [hpa])] at h
      rw [List.cons_append, List.find?_cons_of_neg _ (by simp [hpa])]
      exact ih h

theorem resolve_request_requests (db : DB) (rid ans : String) :
    (resolve_request db rid ans).requests =
      db.requests.map (fun x =>
        if x.id == rid then
          { x with status := "resolved", supervisorAnswer := some ans }
        else x) := rfl

/-- C2 (confirmed): for a HelpRequest `r` of the active caller — its
`caller_id` is the id of the customer row stored for the active phone, and
both it and the supervisor answer are non-empty — after `resolve_request`
sets it to `resolved` with the answer, one poll cycle speaks exactly one
follow-up for it, whose text is the fixed prefix followed by that answer, and
sets its status to `delivered`; a second poll cycle speaks nothing for it and
leaves its row unchanged, because delivered rows no longer match the
resolved-status filter. (`hids` is the primary-key distinctness of ids.) -/
theorem C2_resolve_then_poll (db : DB) (phone ans cid cid2 : String)
    (r : HelpReq) (c : Customer)
    (hids : (db.requests.map HelpReq.id).Nodup)
    (hr : r ∈ db.requests)
    (hc : db.customers.find? (fun x => x.phone == phone) = some c)
    (hcaller : r.callerId = c.id)
    (hne : r.callerId ≠ "")
    (hans : ans ≠ "") :
    ((resolve_request db r.id ans).requests.find? (fun x => x.id == r.id) =
      some { r with status := "resolved", supervisorAnswer := some ans }) ∧
    ((poll_cycle (resolve_request db r.id ans) phone cid).2.filter
        (fun m => m.1 == r.id) =
      [(r.id, "Great news! My supervisor says: " ++ ans)]) ∧
    ((poll_cycle (resolve_request db r.id ans) phone cid).1.requests.find?
        (fun x => x.id == r.id) =
      some { r with status := "delivered", supervisorAnswer := some ans }) ∧
    ((poll_cycle (poll_cycle (resolve_request db r.id ans) phone cid).1
        phone cid2).2.filter (fun m => m.1 == r.id) = []) ∧
    ((poll_cycle (poll_cycle (resolve_request db r.id ans) phone cid).1
        phone cid2).1.requests.find? (fun x => x.id == r.id) =
      some { r with status := "delivered", supervisorAnswer := some ans }) := by
  have hkeyf : ∀ x : HelpReq,
      ((if x.id == r.id then
          ({ x with status := "resolved", supervisorAnswer := some ans } : HelpReq)
        else x).id == r.id) = (x.id == r.id) := by
    intro x
    by_cases hx : (x.id == r.id) = true
    · rw [if_pos hx]
    · rw [if_neg hx]
  have hkeyg : ∀ x : HelpReq,
      ((if shouldDeliver c.id x then markOne x else x).id == r.id)
        = (x.id == r.id) := by
    intro x
    by_cases hx : shouldDeliver c.id x = true
    · rw [if_pos hx, markOne_id]
    · rw [if_neg hx]
  have hids1 : ((resolve_request db r.id ans).requests.map HelpReq.id).Nodup := by
    rw [resolve_request_map_id]
    exact hids
  have hfind1 : (resolve_request db r.id ans).requests.find?
      (fun x => x.id == r.id) =
      some { r with status := "resolved", supervisorAnswer := some ans } := by
    rw [resolve_request_requests,
      find?_map_of_key
        (fun x : HelpReq => if x.id == r.id then
          { x with status := "resolved", supervisorAnswer := some ans } else x)
        (fun x : HelpReq => x.id == r.id) db.requests hkeyf,
      find?_id_of_nodup hids hr]
    simp
  have hcust1 : (resolve_request db r.id ans).customers = db.customers := rfl
  have hactive1 : activeCid (resolve_request db r.id ans) cid phone = c.id := by
    unfold activeCid
    rw [hcust1, hc]
  have hcne : c.id ≠ "" := fun h => hne (hcaller.trans h)
  have hsd1 : shouldDeliver c.id
      ({ r with status := "resolved", supervisorAnswer := some ans } : HelpReq)
      = true := by
    simp [shouldDeliver, threeChecks, hans, hcaller, hcne]
  have hr1mem : ({ r with status := "resolved", supervisorAnswer := some ans } :
      HelpReq) ∈ (resolve_request db r.id ans).requests := by
    rw [resolve_request_requests]
    have hmm := List.mem_map_of_mem (fun x : HelpReq =>
      if x.id == r.id then
        { x with status := "resolved", supervisorAnswer := some ans }
      else x) hr
    simpa using hmm
  have hfind2 : (poll_cycle (resolve_request db r.id ans) phone cid).1.requests.find?
      (fun x => x.id == r.id) =
      some { r with status := "delivered", supervisorAnswer := some ans } := by
    rw [poll_cycle_requests _ phone cid hids1, hactive1,
      find?_map_of_key
        (fun x : HelpReq => if shouldDeliver c.id x then markOne x else x)
        (fun x : HelpReq => x.id == r.id)
        (resolve_request db r.id ans).requests hkeyg,
      hfind1]
    simp [hsd1, markOne]
  have hidsS : ((get_all_requests (resolve_request db r.id ans)).map
      HelpReq.id).Nodup := by
    unfold get_all_requests
    rw [List.map_reverse]
    exact List.nodup_reverse.mpr hids1
  have hr1S : ({ r with status := "resolved", supervisorAnswer := some ans } :
      HelpReq) ∈ get_all_requests (resolve_request db r.id ans) := by
    unfold get_all_requests
    exact List.mem_reverse.mpr hr1mem
  have hkS : (get_all_requests (resolve_request db r.id ans)).filter
      (fun x => x.id == r.id) =
      [{ r with status := "resolved", supervisorAnswer := some ans }] := by
    exact filter_id_singleton hidsS hr1S
  have hmsgs1 : (poll_cycle (resolve_request db r.id ans) phone cid).2.filter
      (fun m => m.1 == r.id) =
      [(r.id, "Great news! My supervisor says: " ++ ans)] := by
    rw [poll_cycle_msgs _ phone cid, hactive1, List.filter_map]
    have hchain : ((get_all_requests (resolve_request db r.id ans)).filter
        (shouldDeliver c.id)).filter
        ((fun m : String × String => m.1 == r.id) ∘
          (fun x : HelpReq => (x.id, deliverMsg x))) =
        [{ r with status := "resolved", supervisorAnswer := some ans }] := by
      rw [List.filter_filter]
      have hswap : (get_all_requests (resolve_request db r.id ans)).filter
          (fun a => ((fun m : String × String => m.1 == r.id) ∘
            (fun x : HelpReq => (x.id, deliverMsg x))) a && shouldDeliver c.id a) =
          ((get_all_requests (resolve_request db r.id ans)).filter
            (fun x => x.id == r.id)).filter (shouldDeliver c.id) := by
        rw [List.filter_filter]
        apply List.filter_congr'
        intro x _
        exact Bool.and_comm _ _
      rw [hswap, hkS, List.filter_cons_of_pos hsd1]
      rfl
    rw [hchain]
    simp [deliverMsg]
  have hg1r1 : (fun x : HelpReq => if shouldDeliver c.id x then markOne x else x)
      ({ r with status := "resolved", supervisorAnswer := some ans } : HelpReq) =
      { r with status := "delivered", supervisorAnswer := some ans } := by
    simp [hsd1, markOne]
  have hdb2req : (poll_cycle (resolve_request db r.id ans) phone cid).1.requests =
      (resolve_request db r.id ans).requests.map
        (fun x => if shouldDeliver c.id x then markOne x else x) := by
    rw [poll_cycle_requests _ phone cid hids1, hactive1]
  have hids2 : (((poll_cycle (resolve_request db r.id ans) phone cid).1.requests).map
      HelpReq.id).Nodup := by
    rw [hdb2req, map_id_preserved (fun x => by
      by_cases hx : shouldDeliver c.id x = true
      · rw [if_pos hx, markOne_id]
      · rw [if_neg hx])]
    exact hids1
  have hcust2 : (poll_cycle (resolve_request db r.id ans) phone cid).1.customers =
      db.customers := by
    rw [poll_cycle_customers]
    rw [show (resolve_request db r.id ans).customers = db.customers from rfl, hc]
    rfl
  have hactive2 : activeCid (poll_cycle (resolve_request db r.id ans) phone cid).1
      cid2 phone = c.id := by
    unfold activeCid
    rw [hcust2, hc]
  have hsd2 : shouldDeliver c.id
      ({ r with status := "delivered", supervisorAnswer := some ans } : HelpReq)
      = false := by
    unfold shouldDeliver threeChecks
    simp
  have hfind3 : (poll_cycle (poll_cycle (resolve_request db r.id ans) phone cid).1
      phone cid2).1.requests.find? (fun x => x.id == r.id) =
      some { r with status := "delivered", supervisorAnswer := some ans } := by
    rw [poll_cycle_requests _ phone cid2 hids2, hactive2,
      find?_map_of_key
        (fun x : HelpReq => if shouldDeliver c.id x then markOne x else x)
        (fun x : HelpReq => x.id == r.id)
        (poll_cycle (resolve_request db r.id ans) phone cid).1.requests hkeyg,
      hfind2]
    simp [hsd2]
  have hr2mem : ({ r with status := "delivered", supervisorAnswer := some ans } :
      HelpReq) ∈ (poll_cycle (resolve_request db r.id ans) phone cid).1.requests := by
    rw [hdb2req, ← hg1r1]
    exact List.mem_map_of_mem _ hr1mem
  have hidsS2 : ((get_all_requests
      (poll_cycle (resolve_request db r.id ans) phone cid).1).map
      HelpReq.id).Nodup := by
    unfold get_all_requests
    rw [List.map_reverse]
    exact List.nodup_reverse.mpr hids2
  have hr2S : ({ r with status := "delivered", supervisorAnswer := some ans } :
      HelpReq) ∈ get_all_requests
        (poll_cycle (resolve_request db r.id ans) phone cid).1 := by
    unfold get_all_requests
    exact List.mem_reverse.mpr hr2mem
  have hkS2 : (get_all_requests
      (poll_cycle (resolve_request db r.id ans) phone cid).1).filter
      (fun x => x.id == r.id) =
      [{ r with status := "delivered", supervisorAnswer := some ans }] := by
    exact filter_id_singleton hidsS2 hr2S
  have hmsgs2 : (poll_cycle (poll_cycle (resolve_request db r.id ans) phone cid).1
      phone cid2).2.filter (fun m => m.1 == r.id) = [] := by
    rw [poll_cycle_msgs _ phone cid2, hactive2, List.filter_map]
    have hchain : ((get_all_requests
        (poll_cycle (resolve_request db r.id ans) phone cid).1).filter
        (shouldDeliver c.id)).filter
        ((fun m : String × String => m.1 == r.id) ∘
          (fun x : HelpReq => (x.id, deliverMsg x))) = [] := by
      rw [List.filter_filter]
      have hswap : (get_all_requests
          (poll_cycle (resolve_request db r.id ans) phone cid).1).filter
          (fun a => ((fun m : String × String => m.1 == r.id) ∘
            (fun x : HelpReq => (x.id, deliverMsg x))) a && shouldDeliver c.id a) =
          ((get_all_requests
            (poll_cycle (resolve_request db r.id ans) phone cid).1).filter
            (fun x => x.id == r.id)).filter (shouldDeliver c.id) := by
        rw [List.filter_filter]
        apply List.filter_congr'
        intro x _
        exact Bool.and_comm _ _
      rw [hswap, hkS2, List.filter_cons_of_neg (by simp [hsd2])]
      rfl
    rw [hchain]
    rfl
  exact ⟨hfind1, hmsgs1, hfind2, hmsgs2, hfind3⟩


/-- C2 witness: the round-trip theorem applied to the concrete store `dbC2`
with answer "Yes we do". -/
theorem C2_resolve_then_poll_witness :
    ((resolve_request dbC2 "r1" "Yes we do").requests.find? (fun x => x.id == "r1") =
      some ⟨"r1", "do you sell gift cards", "c1", none, "resolved", some "Yes we do"⟩) ∧
    ((poll_cycle (resolve_request dbC2 "r1" "Yes we do") "5551234567" "u1").2.filter
        (fun m => m.1 == "r1") =
      [("r1", "Great news! My supervisor says: " ++ "Yes we do")]) ∧
    ((poll_cycle (resolve_request dbC2 "r1" "Yes we do") "5551234567" "u1").1.requests.find?
        (fun x => x.id == "r1") =
      some ⟨"r1", "do you sell gift cards", "c1", none, "delivered", some "Yes we do"⟩) ∧
    ((poll_cycle (poll_cycle (resolve_request dbC2 "r1" "Yes we do") "5551234567" "u1").1
        "5551234567" "u2").2.filter (fun m => m.1 == "r1") = []) ∧
    ((poll_cycle (poll_cycle (resolve_request dbC2 "r1" "Yes we do") "5551234567" "u1").1
        "5551234567" "u2").1.requests.find? (fun x => x.id == "r1") =
      some ⟨"r1", "do you sell gift cards", "c1", none, "delivered", some "Yes we do"⟩) :=
  C2_resolve_then_poll dbC2 "5551234567" "Yes we do" "u1" "u2"
    ⟨"r1", "do you sell gift cards", "c1", none, "pending", none⟩
    ⟨"c1", "5551234567", "Customer"⟩
    (by decide) (by decide) (by decide) (by decide) (by decide) (by decide)

/-! ## Status state machine (C3) -/

theorem create_help_request_requests (db : DB) (rid q cl : String)
    (p : Option String) :
    (create_help_request db rid q cl p).requests =
      db.requests ++ [⟨rid, q, cl, p, "pending", none⟩] := rfl

theorem bool_not_true {b : Bool} (h : ¬ b = true) : b = false := by
  cases b
  · rfl
  · exact absurd rfl h

theorem answer_request_requests (db : DB) (rid a : String) :
    (answer_request db rid a).requests =
      if a == "" then db.requests else (resolve_request db rid a).requests := by
  simp only [answer_request]
  by_cases h : (a == "") = true
  · rw [if_pos h, if_pos h]
  · rw [if_neg h, if_neg h]
    cases hf : (get_all_requests (resolve_request db rid a)).find?
        (fun r => r.id == rid) with
    | some x => rfl
    | none => rfl

/-- The effect of `resolve_request` on one request's status: either untouched,
or set to `resolved` when the targeted id is the one looked up. -/
theorem resolve_status_cases (db : DB) (rid0 a rid : String) :
    statusOf (resolve_request db rid0 a) rid = statusOf db rid ∨
    (statusOf db rid ≠ none ∧
      statusOf (resolve_request db rid0 a) rid = some "resolved" ∧ rid0 = rid) := by
  have hkey : ∀ x : HelpReq,
      ((if x.id == rid0 then
          ({ x with status := "resolved", supervisorAnswer := some a } : HelpReq)
        else x).id == rid) = (x.id == rid) := by
    intro x
    by_cases hx : (x.id == rid0) = true
    · rw [if_pos hx]
    · rw [if_neg hx]
  unfold statusOf
  rw [resolve_request_requests,
    find?_map_of_key
      (fun x : HelpReq => if x.id == rid0 then
        { x with status := "resolved", supervisorAnswer := some a } else x)
      (fun x : HelpReq => x.id == rid) db.requests hkey]
  cases hf : db.requests.find? (fun x => x.id == rid) with
  | none =>
    left
    rfl
  | some x =>
    have hx : x.id = rid := by simpa using List.find?_some hf
    by_cases h0 : (x.id == rid0) = true
    · right
      have h02 : x.id = rid0 := by simpa using h0
      refine ⟨by simp, ?_, h02.symm.trans hx⟩
      simp [h02]
    · left
      have hneq : ¬ x.id = rid0 := fun hcon => h0 (by simp [hcon])
      simp [hneq]

/-- C3 (amended): with pairwise-distinct request ids, every store operation
changes a request's status in exactly one of these ways: not at all; a fresh
row appears as `pending` (creation); the row is set to `resolved` by
`resolve_request` or a dashboard answer endpoint targeting its id —
**unconditionally, whatever its previous status, including `delivered`**; or
a `resolved` row is set to `delivered` by a poll cycle. Hence status moves
forward along pending → resolved → delivered except that re-answering an
already-delivered request regresses it to `resolved`. -/
theorem C3_status_transitions (db : DB) (op : AgentOp) (rid : String)
    (hids : (db.requests.map HelpReq.id).Nodup) :
    statusOf (applyOp db op) rid = statusOf db rid ∨
    (statusOf db rid = none ∧ statusOf (applyOp db op) rid = some "pending" ∧
      ∃ q cl p, op = .create rid q cl p) ∨
    (statusOf db rid ≠ none ∧ statusOf (applyOp db op) rid = some "resolved" ∧
      ((∃ a, op = .resolve rid a) ∨ (∃ a, op = .dashAnswer rid a))) ∨
    (statusOf db rid = some "resolved" ∧
      statusOf (applyOp db op) rid = some "delivered" ∧
      ∃ phone cid, op = .poll phone cid) := by
  cases op with
  | create rid0 q cl p =>
    have happ : applyOp db (AgentOp.create rid0 q cl p)
        = create_help_request db rid0 q cl p := rfl
    rw [happ]
    unfold statusOf
    rw [create_help_request_requests]
    cases hf : db.requests.find? (fun x => x.id == rid) with
    | some x =>
      left
      rw [find?_append_some hf]
    | none =>
      rw [find?_append_none hf]
      by_cases h0 : (rid0 == rid) = true
      · right
        left
        have h02 : rid0 = rid := by simpa using h0
        subst h02
        refine ⟨rfl, ?_, q, cl, p, rfl⟩
        rw [List.find?_cons_of_pos _ (by simp)]
        rfl
      · left
        rw [List.find?_cons_of_neg _ (by simpa using h0)]
        rfl
  | resolve rid0 a =>
    rcases resolve_status_cases db rid0 a rid with h | ⟨h1, h2, h3⟩
    · left
      exact h
    · right
      right
      left
      subst h3
      exact ⟨h1, h2, Or.inl ⟨a, rfl⟩⟩
  | dashAnswer rid0 a =>
    have happ : applyOp db (AgentOp.dashAnswer rid0 a)
        = answer_request db rid0 a := rfl
    rw [happ]
    by_cases ha : (a == "") = true
    · left
      unfold statusOf
      rw [answer_request_requests, if_pos ha]
    · have hsame : statusOf (answer_request db rid0 a) rid =
          statusOf (resolve_request db rid0 a) rid := by
        unfold statusOf
        rw [answer_request_requests, if_neg ha]
      rcases resolve_status_cases db rid0 a rid with h | ⟨h1, h2, h3⟩
      · left
        rw [hsame]
        exact h
      · right
        right
        left
        subst h3
        exact ⟨h1, hsame.trans h2, Or.inr ⟨a, rfl⟩⟩
  | poll phone cid =>
    have hkeyg : ∀ x : HelpReq,
        ((if shouldDeliver (activeCid db cid phone) x then markOne x else x).id
          == rid) = (x.id == rid) := by
      intro x
      by_cases hx : shouldDeliver (activeCid db cid phone) x = true
      · rw [if_pos hx, markOne_id]
      · rw [if_neg hx]
    have happ : applyOp db (AgentOp.poll phone cid)
        = (poll_cycle db phone cid).1 := rfl
    rw [happ]
    unfold statusOf
    rw [poll_cycle_requests db phone cid hids,
      find?_map_of_key
        (fun x : HelpReq =>
          if shouldDeliver (activeCid db cid phone) x then markOne x else x)
        (fun x : HelpReq => x.id == rid) db.requests hkeyg]
    cases hf : db.requests.find? (fun x => x.id == rid) with
    | none =>
      left
      rfl
    | some x =>
      by_cases hsd : shouldDeliver (activeCid db cid phone) x = true
      · right
        right
        right
        have hst : x.status = "resolved" := by
          unfold shouldDeliver threeChecks at hsd
          simp only [Bool.and_eq_true] at hsd
          simpa using hsd.1.1.1
        refine ⟨by simp [hst], ?_, phone, cid, rfl⟩
        simp [hsd, markOne]
      · left
        simp [hsd]

/-- C3 counterexample: create a request, resolve it, deliver it through a
poll cycle (the poller creates the matching customer row on first contact),
then answer it again through the dashboard endpoint — its status regresses
from `delivered` back to `resolved`. -/
theorem C3_counterexample :
    statusOf (applyOp (applyOp (applyOp emptyDB
        (.create "r1" "do you sell gift cards" "c1" none))
        (.resolve "r1" "Yes we do"))
        (.poll "5551234567" "c1")) "r1" = some "delivered" ∧
    statusOf (applyOp (applyOp (applyOp (applyOp emptyDB
        (.create "r1" "do you sell gift cards" "c1" none))
        (.resolve "r1" "Yes we do"))
        (.poll "5551234567" "c1"))
        (.dashAnswer "r1" "Actually only in store")) "r1" = some "resolved" :=
  ⟨by decide, by decide⟩

/-- C3 witness: the transition characterization applied to a concrete
dashboard re-answer of an already delivered request (the fourth operation of
the counterexample run): the only disjunct that holds is the unconditional
move to `resolved`. -/
theorem C3_status_transitions_witness :
    statusOf (applyOp (applyOp (applyOp (applyOp emptyDB
        (.create "r1" "do you sell gift cards" "c1" none))
        (.resolve "r1" "Yes we do"))
        (.poll "5551234567" "c1"))
        (.dashAnswer "r1" "Actually only in store")) "r1" =
      statusOf (applyOp (applyOp (applyOp emptyDB
        (.create "r1" "do you sell gift cards" "c1" none))
        (.resolve "r1" "Yes we do"))
        (.poll "5551234567" "c1")) "r1" ∨
    (statusOf (applyOp (applyOp (applyOp emptyDB
        (.create "r1" "do you sell gift cards" "c1" none))
        (.resolve "r1" "Yes we do"))
        (.poll "5551234567" "c1")) "r1" = none ∧
      statusOf (applyOp (applyOp (applyOp (applyOp emptyDB
        (.create "r1" "do you sell gift cards" "c1" none))
        (.resolve "r1" "Yes we do"))
        (.poll "5551234567" "c1"))
        (.dashAnswer "r1" "Actually only in store")) "r1" = some "pending" ∧
      ∃ q cl p, (AgentOp.dashAnswer "r1" "Actually only in store") =
        .create "r1" q cl p) ∨
    (statusOf (applyOp (applyOp (applyOp emptyDB
        (.create "r1" "do you sell gift cards" "c1" none))
        (.resolve "r1" "Yes we do"))
        (.poll "5551234567" "c1")) "r1" ≠ none ∧
      statusOf (applyOp (applyOp (applyOp (applyOp emptyDB
        (.create "r1" "do you sell gift cards" "c1" none))
        (.resolve "r1" "Yes we do"))
        (.poll "5551234567" "c1"))
        (.dashAnswer "r1" "Actually only in store")) "r1" = some "resolved" ∧
      ((∃ a, (AgentOp.dashAnswer "r1" "Actually only in store") = .resolve "r1" a) ∨
       (∃ a, (AgentOp.dashAnswer "r1" "Actually only in store") =
         .dashAnswer "r1" a))) ∨
    (statusOf (applyOp (applyOp (applyOp emptyDB
        (.create "r1" "do you sell gift cards" "c1" none))
        (.resolve "r1" "Yes we do"))
        (.poll "5551234567" "c1")) "r1" = some "resolved" ∧
      statusOf (applyOp (applyOp (applyOp (applyOp emptyDB
        (.create "r1" "do you sell gift cards" "c1" none))
        (.resolve "r1" "Yes we do"))
        (.poll "5551234567" "c1"))
        (.dashAnswer "r1" "Actually only in store")) "r1" = some "delivered" ∧
      ∃ phone cid, (AgentOp.dashAnswer "r1" "Actually only in store") =
        .poll phone cid) :=
  C3_status_transitions (applyOp (applyOp (applyOp emptyDB
      (.create "r1" "do you sell gift cards" "c1" none))
      (.resolve "r1" "Yes we do"))
      (.poll "5551234567" "c1"))
    (.dashAnswer "r1" "Actually only in store") "r1" (by decide)

/-! ## The four-tier KB matcher (C5) -/

/-- On a hit at tier `t0` with all strictly lower tiers empty, the cascade
result `some e.2` satisfies the tier characterization. -/
theorem cascade_hit (q : List Char) (nkb : List (List Char × String))
    (t0 : Nat) (e : List Char × String)
    (ht0 : t0 ∈ [1, 2, 3, 4])
    (hprev : ∀ s ∈ [1, 2, 3, 4], s < t0 →
      nkb.find? (fun p => tierMatch s q p.1) = none)
    (he : nkb.find? (fun p => tierMatch t0 q p.1) = some e) :
    ((some e.2 = (none : Option String)) ↔
      ∀ t ∈ [1, 2, 3, 4], ∀ p ∈ nkb, tierMatch t q p.1 = false) ∧
    (∀ a, some e.2 = some a ↔
      ∃ t ∈ [1, 2, 3, 4],
        (∀ s ∈ [1, 2, 3, 4], s < t → ∀ p ∈ nkb, tierMatch s q p.1 = false) ∧
        ∃ l₁ e2 l₂, nkb = l₁ ++ e2 :: l₂ ∧ tierMatch t q e2.1 = true ∧
          e2.2 = a ∧ ∀ p ∈ l₁, tierMatch t q p.1 = false) := by
  have hmem := List.mem_of_find?_eq_some he
  have htrue := List.find?_some he
  constructor
  · constructor
    · intro h
      exact Option.noConfusion h
    · intro hall
      rw [hall t0 ht0 e hmem] at htrue
      exact Bool.noConfusion htrue
  · intro a
    constructor
    · intro h
      injection h with h
      obtain ⟨l₁, l₂, heq, hx, hallpre⟩ := (find?_eq_some_split _ _ _).mp he
      refine ⟨t0, ht0, ?_, l₁, e, l₂, heq, hx, h, hallpre⟩
      intro s hs hlt p hp
      exact bool_not_true (List.find?_eq_none.mp (hprev s hs hlt) p hp)
    · rintro ⟨t, htmem, hlow, l₁, e2, l₂, heq, hte, hea, hallpre⟩
      rcases Nat.lt_trichotomy t t0 with hlt | heqt | hgt
      · exfalso
        have hnone := hprev t htmem hlt
        have he2mem : e2 ∈ nkb := by
          rw [heq]
          exact List.mem_append_right _ (List.mem_cons_self _ _)
        have hcontra := List.find?_eq_none.mp hnone e2 he2mem
        rw [hte] at hcontra
        exact hcontra rfl
      · subst heqt
        have hsome : nkb.find? (fun p => tierMatch t q p.1) = some e2 :=
          (find?_eq_some_split _ _ _).mpr ⟨l₁, l₂, heq, hte, hallpre⟩
        rw [he] at hsome
        injection hsome with hsome
        rw [hsome, hea]
      · exfalso
        have hfalse := hlow t0 ht0 hgt e hmem
        rw [hfalse] at htrue
        exact Bool.noConfusion htrue

/-- When all four tiers are empty, the cascade result `none` satisfies the
tier characterization. -/
theorem cascade_allnone (q : List Char) (nkb : List (List Char × String))
    (hall : ∀ t ∈ [1, 2, 3, 4], nkb.find? (fun p => tierMatch t q p.1) = none) :
    (((none : Option String) = none) ↔
      ∀ t ∈ [1, 2, 3, 4], ∀ p ∈ nkb, tierMatch t q p.1 = false) ∧
    (∀ a, (none : Option String) = some a ↔
      ∃ t ∈ [1, 2, 3, 4],
        (∀ s ∈ [1, 2, 3, 4], s < t → ∀ p ∈ nkb, tierMatch s q p.1 = false) ∧
        ∃ l₁ e2 l₂, nkb = l₁ ++ e2 :: l₂ ∧ tierMatch t q e2.1 = true ∧
          e2.2 = a ∧ ∀ p ∈ l₁, tierMatch t q p.1 = false) := by
  constructor
  · constructor
    · intro _ t ht p hp
      exact bool_not_true (List.find?_eq_none.mp (hall t ht) p hp)
    · intro _
      rfl
  · intro a
    constructor
    · intro h
      exact Option.noConfusion h
    · rintro ⟨t, htmem, _, l₁, e2, l₂, heq, hte, _, hallpre⟩
      exfalso
      have hsome : nkb.find? (fun p => tierMatch t q p.1) = some e2 :=
        (find?_eq_some_split _ _ _).mpr ⟨l₁, l₂, heq, hte, hallpre⟩
      rw [hall t htmem] at hsome
      exact Option.noConfusion hsome

/-- C5 (confirmed): for every stored knowledge base and every query,
`get_answer` returns `none` exactly when no entry matches any of the four
tiers, and it returns `some a` exactly when, for the lowest tier `t` with a
match (all strictly lower tiers matching no entry at all), `a` is the answer
of the earliest-stored entry matching tier `t` — the entry splits the stored
list with everything before it failing tier `t`. -/
theorem C5_kb_matcher_tiers (kb : List (String × String)) (question : String) :
    (get_answer kb question = none ↔
      ∀ t ∈ [1, 2, 3, 4], ∀ p ∈ toNormKB kb,
        tierMatch t (normQuery question) p.1 = false) ∧
    (∀ a, get_answer kb question = some a ↔
      ∃ t ∈ [1, 2, 3, 4],
        (∀ s ∈ [1, 2, 3, 4], s < t → ∀ p ∈ toNormKB kb,
          tierMatch s (normQuery question) p.1 = false) ∧
        ∃ l₁ e l₂, toNormKB kb = l₁ ++ e :: l₂ ∧
          tierMatch t (normQuery question) e.1 = true ∧ e.2 = a ∧
          ∀ p ∈ l₁, tierMatch t (normQuery question) p.1 = false) := by
  have hdef : get_answer kb question =
      (match (toNormKB kb).find?
          (fun p => tierMatch 1 (normQuery question) p.1) with
      | some p => some p.2
      | none =>
        match (toNormKB kb).find?
            (fun p => tierMatch 2 (normQuery question) p.1) with
        | some p => some p.2
        | none =>
          match (toNormKB kb).find?
              (fun p => tierMatch 3 (normQuery question) p.1) with
          | some p => some p.2
          | none =>
            match (toNormKB kb).find?
                (fun p => tierMatch 4 (normQuery question) p.1) with
            | some p => some p.2
            | none => none) := rfl
  cases h1 : (toNormKB kb).find?
      (fun p => tierMatch 1 (normQuery question) p.1) with
  | some e1 =>
    have hget : get_answer kb question = some e1.2 := by rw [hdef, h1]
    rw [hget]
    exact cascade_hit _ _ 1 e1 (by simp)
      (fun s hs hlt => by
        rcases (by simpa using hs : s = 1 ∨ s = 2 ∨ s = 3 ∨ s = 4)
          with rfl | rfl | rfl | rfl <;> omega) h1
  | none =>
  cases h2 : (toNormKB kb).find?
      (fun p => tierMatch 2 (normQuery question) p.1) with
  | some e2 =>
    have hget : get_answer kb question = some e2.2 := by rw [hdef, h1, h2]
    rw [hget]
    exact cascade_hit _ _ 2 e2 (by simp)
      (fun s hs hlt => by
        rcases (by simpa using hs : s = 1 ∨ s = 2 ∨ s = 3 ∨ s = 4)
          with rfl | rfl | rfl | rfl
        · exact h1
        · omega
        · omega
        · omega) h2
  | none =>
  cases h3 : (toNormKB kb).find?
      (fun p => tierMatch 3 (normQuery question) p.1) with
  | some e3 =>
    have hget : get_answer kb question = some e3.2 := by rw [hdef, h1, h2, h3]
    rw [hget]
    exact cascade_hit _ _ 3 e3 (by simp)
      (fun s hs hlt => by
        rcases (by simpa using hs : s = 1 ∨ s = 2 ∨ s = 3 ∨ s = 4)
          with rfl | rfl | rfl | rfl
        · exact h1
        · exact h2
        · omega
        · omega) h3
  | none =>
  cases h4 : (toNormKB kb).find?
      (fun p => tierMatch 4 (normQuery question) p.1) with
  | some e4 =>
    have hget : get_answer kb question = some e4.2 := by rw [hdef, h1, h2, h3, h4]
    rw [hget]
    exact cascade_hit _ _ 4 e4 (by simp)
      (fun s hs hlt => by
        rcases (by simpa using hs : s = 1 ∨ s = 2 ∨ s = 3 ∨ s = 4)
          with rfl | rfl | rfl | rfl
        · exact h1
        · exact h2
        · exact h3
        · omega) h4
  | none =>
    have hget : get_answer kb question = none := by rw [hdef, h1, h2, h3, h4]
    rw [hget]
    exact cascade_allnone _ _ (fun t ht => by
      rcases (by simpa using ht : t = 1 ∨ t = 2 ∨ t = 3 ∨ t = 4)
        with rfl | rfl | rfl | rfl
      · exact h1
      · exact h2
      · exact h3
      · exact h4)

/-- C5 witness: applying the characterization to the seeded store and the
query "xyz" (for which `get_answer` concretely returns `none`) yields that
every entry fails every tier. -/
theorem C5_kb_matcher_tiers_witness :
    ∀ t ∈ [1, 2, 3, 4], ∀ p ∈ toNormKB seedData,
      tierMatch t (normQuery "xyz") p.1 = false :=
  (C5_kb_matcher_tiers seedData "xyz").1.mp (by decide)

/-! ## Seeding duplication and the knowledge-base dict (C10) -/

theorem lastAnswer_concat (kb : List (String × String)) (p : String × String)
    (q : String) :
    lastAnswer (kb ++ [p]) q =
      if p.1 == q then some p.2 else lastAnswer kb q := by
  unfold lastAnswer
  rw [List.filter_append]
  by_cases h : (p.1 == q) = true
  · rw [if_pos h]
    have hsingle : List.filter (fun x : String × String => x.1 == q) [p] = [p] := by
      simp [h]
    rw [hsingle, List.getLast?_concat]
    rfl
  · rw [if_neg h]
    have hnil : List.filter (fun x : String × String => x.1 == q) [p] = [] := by
      simp [h]
    rw [hnil, List.append_nil]

theorem dictInsert_keys (acc : List (String × String)) (p : String × String) :
    (dictInsert acc p).map Prod.fst =
      if acc.any (fun e => e.1 == p.1) then acc.map Prod.fst
      else acc.map Prod.fst ++ [p.1] := by
  unfold dictInsert
  by_cases hany : (acc.any fun e => e.1 == p.1) = true
  · rw [if_pos hany, if_pos hany, List.map_map]
    apply List.map_congr_left
    intro e _
    simp only [Function.comp_apply]
    by_cases he : (e.1 == p.1) = true
    · rw [if_pos he]
    · rw [if_neg he]
  · rw [if_neg hany, if_neg hany, List.map_append]
    rfl

theorem dictLookup_dictInsert (acc : List (String × String))
    (p : String × String) (q : String) :
    dictLookup (dictInsert acc p) q =
      if p.1 == q then some p.2 else dictLookup acc q := by
  have hkey : ∀ e : String × String,
      (((if e.1 == p.1 then (e.1, p.2) else e) : String × String).1 == q)
        = (e.1 == q) := by
    intro e
    by_cases he : (e.1 == p.1) = true
    · rw [if_pos he]
    · rw [if_neg he]
  unfold dictInsert dictLookup
  by_cases hany : (acc.any fun e => e.1 == p.1) = true
  · rw [if_pos hany,
      find?_map_of_key (fun e => if e.1 == p.1 then (e.1, p.2) else e)
        (fun e => e.1 == q) acc hkey]
    by_cases hq : (p.1 == q) = true
    · rw [if_pos hq]
      have hq2 : p.1 = q := by simpa using hq
      rcases List.any_eq_true.mp hany with ⟨e0, he0mem, he0p⟩
      cases hf : acc.find? (fun e => e.1 == q) with
      | none =>
        exfalso
        have hn := List.find?_eq_none.mp hf e0 he0mem
        have he0q : (e0.1 == q) = true := by
          have he0p2 : e0.1 = p.1 := by simpa using he0p
          rw [he0p2, hq2]
          simp
        exact hn he0q
      | some e =>
        have h1 : e.1 = q := by simpa using List.find?_some hf
        have hep2 : e.1 = p.1 := h1.trans hq2.symm
        simp [hep2]
    · rw [if_neg hq]
      cases hf : acc.find? (fun e => e.1 == q) with
      | none => rfl
      | some e =>
        have h1 : e.1 = q := by simpa using List.find?_some hf
        have hep2 : ¬ e.1 = p.1 := by
          intro h2
          apply hq
          rw [← h2, h1]
          simp
        simp [hep2]
  · rw [if_neg hany]
    by_cases hq : (p.1 == q) = true
    · rw [if_pos hq]
      have hq2 : p.1 = q := by simpa using hq
      have hfn : acc.find? (fun e => e.1 == q) = none := by
        rw [List.find?_eq_none]
        intro e he hekey
        apply hany
        refine List.any_eq_true.mpr ⟨e, he, ?_⟩
        have h1 : e.1 = q := by simpa using hekey
        rw [h1, hq2]
        simp
      rw [find?_append_none hfn]
      simp [List.find?, hq]
    · rw [if_neg hq]
      cases hf : acc.find? (fun e => e.1 == q) with
      | some e => rw [find?_append_some hf]
      | none =>
        rw [find?_append_none hf]
        simp [List.find?, hq]

/-- Invariant of the dict comprehension fold: keys stay pairwise distinct and
every lookup equals the answer of the last processed row with that question. -/
theorem dict_fold_spec (kb : List (String × String)) :
    ∀ acc processed : List (String × String),
      ((acc.map Prod.fst).Nodup) →
      (∀ q, dictLookup acc q = lastAnswer processed q) →
      (((kb.foldl dictInsert acc).map Prod.fst).Nodup ∧
       ∀ q, dictLookup (kb.foldl dictInsert acc) q =
         lastAnswer (processed ++ kb) q) := by
  induction kb with
  | nil =>
    intro acc processed h1 h2
    rw [List.foldl_nil]
    exact ⟨h1, fun q => by rw [List.append_nil]; exact h2 q⟩
  | cons p rest ih =>
    intro acc processed h1 h2
    rw [List.foldl_cons]
    have h1n : ((dictInsert acc p).map Prod.fst).Nodup := by
      rw [dictInsert_keys]
      by_cases hany : (acc.any fun e => e.1 == p.1) = true
      · rw [if_pos hany]
        exact h1
      · rw [if_neg hany]
        rw [List.nodup_append]
        refine ⟨h1, List.nodup_singleton _, ?_⟩
        intro a ha hb
        have hap : a = p.1 := by simpa using hb
        rcases List.mem_map.mp ha with ⟨e, hemem, hefst⟩
        apply hany
        refine List.any_eq_true.mpr ⟨e, hemem, ?_⟩
        rw [hefst, hap]
        simp
    have h2n : ∀ q, dictLookup (dictInsert acc p) q =
        lastAnswer (processed ++ [p]) q := by
      intro q
      rw [dictLookup_dictInsert, lastAnswer_concat]
      by_cases hq : (p.1 == q) = true
      · rw [if_pos hq, if_pos hq]
      · rw [if_neg hq, if_neg hq]
        exact h2 q
    have hres := ih (dictInsert acc p) (processed ++ [p]) h1n h2n
    refine ⟨hres.1, fun q => ?_⟩
    rw [show processed ++ p :: rest = (processed ++ [p]) ++ rest by simp]
    exact hres.2 q

/-- C10 (confirmed): every construction of `Database` re-runs seeding and,
since `knowledge_base` has no uniqueness constraint on the question text, the
`INSERT OR IGNORE` statements append all 12 seed rows again — the count of
rows holding any seed question grows by one per construction, so duplicates
accumulate (concretely, two constructions from an empty store yield 24 rows
with each seed question stored twice). `get_knowledge_base` builds a Python
dict keyed by the exact question text, so it exposes at most one answer per
question (its keys are pairwise distinct), namely the answer of the **last**
stored row with that question. -/
theorem C10_kb_seeding (db : DB) (q : String) :
    (q ∈ seedData.map Prod.fst →
      ((init_db db).kb.filter (fun p => p.1 == q)).length =
        (db.kb.filter (fun p => p.1 == q)).length + 1) ∧
    (init_db (init_db emptyDB)).kb.length = 24 ∧
    (q ∈ seedData.map Prod.fst →
      ((init_db (init_db emptyDB)).kb.filter (fun p => p.1 == q)).length = 2) ∧
    ((get_knowledge_base db.kb).map Prod.fst).Nodup ∧
    dictLookup (get_knowledge_base db.kb) q = lastAnswer db.kb q := by
  have hseed1 : q ∈ seedData.map Prod.fst →
      (seedData.filter (fun p => p.1 == q)).length = 1 := by
    intro hq
    have hlist : seedData.map Prod.fst =
        ["what are your hours", "when are you open", "where are you located",
         "what services do you offer", "how much is a haircut",
         "do you accept walk ins", "do you take walk ins", "walk ins",
         "how to book appointment", "what is your cancellation policy",
         "do you offer hair coloring", "what brands do you use"] := rfl
    rw [hlist] at hq
    simp only [List.mem_cons, List.not_mem_nil, or_false] at hq
    rcases hq with rfl | rfl | rfl | rfl | rfl | rfl | rfl | rfl | rfl | rfl |
      rfl | rfl <;> decide
  have hfold := dict_fold_spec db.kb [] []
    (by simp) (fun q0 => by simp [dictLookup, lastAnswer])
  refine ⟨?_, by decide, ?_, hfold.1, ?_⟩
  · intro hq
    show ((db.kb ++ seedData).filter (fun p => p.1 == q)).length = _
    rw [List.filter_append, List.length_append, hseed1 hq]
  · intro hq
    show (((seedData : List (String × String)) ++ seedData).filter
      (fun p => p.1 == q)).length = 2
    rw [List.filter_append, List.length_append, hseed1 hq]
  · exact hfold.2 q

/-- C10 witness: at the concrete store of one prior construction and the
first seed question, a second construction adds one more row with that
question, and the dict lookup equals the last stored answer. -/
theorem C10_kb_seeding_witness :
    ((init_db (init_db emptyDB)).kb.filter
      (fun p => p.1 == "what are your hours")).length =
      ((init_db emptyDB).kb.filter
        (fun p => p.1 == "what are your hours")).length + 1 ∧
    dictLookup (get_knowledge_base (init_db emptyDB).kb) "what are your hours" =
      lastAnswer (init_db emptyDB).kb "what are your hours" := by
  have h := C10_kb_seeding (init_db emptyDB) "what are your hours"
  exact ⟨h.1 (by decide), h.2.2.2.2⟩


end SalonAgent
